import Mathlib

/-!
# Admin service of go-github: optional-field records and request/response mapping

A shallow embedding of `github/admin.go`.

* The record types `UserLDAPMapping`, `TeamLDAPMapping` and `AdminMessage` are the
  struct declarations of the source: every Go pointer field is an `Option`, and the
  struct tags (`json:"key,omitempty"`) are transcribed into a field table.
* Go's `encoding/json`, `reflect.DeepEqual` and `fmt.Sprintf` are library code that the
  source drives; they are modelled here at the level of JSON values (not JSON text),
  following their documented behaviour on structs of pointer fields.
* A Go `string` is a sequence of bytes, not necessarily valid UTF-8; a JSON string is
  Unicode text. The encoder reads the bytes as UTF-8 and replaces every invalid byte
  by U+FFFD; the decoder stores the UTF-8 encoding of the text.
* `Client.NewRequest`, `Client.Do` and the `User` struct are declared outside
  `admin.go`; the operations take the client as a parameter, in state-passing style.
-/

set_option autoImplicit false

namespace Github

/-! ## Go values -/

/-- Smallest value of Go's `int` on a 64-bit platform. -/
def minInt : Int := -9223372036854775808

/-- Largest value of Go's `int` on a 64-bit platform. -/
def maxInt : Int := 9223372036854775807

/-- Go's `int`: an integer in the 64-bit two's-complement range. -/
abbrev GoInt : Type := { n : Int // minInt ≤ n ∧ n ≤ maxInt }

/-- A byte. -/
abbrev Byte : Type := Fin 256

/-- The byte holding a number below 256. -/
def byte (n : Nat) : Byte :=
  ⟨n % 256, Nat.mod_lt n (by decide)⟩

/-- Go's `string`: a sequence of bytes, which need not be valid UTF-8. -/
abbrev GoString : Type := List Byte

/-- UTF-8 encoding of one Unicode scalar value, in one to four bytes. -/
def encodeRune (c : Char) : List Byte :=
  if c.toNat < 0x80 then [byte c.toNat]
  else if c.toNat < 0x800 then [byte (0xC0 + c.toNat / 64), byte (0x80 + c.toNat % 64)]
  else if c.toNat < 0x10000 then
    [byte (0xE0 + c.toNat / 4096), byte (0x80 + c.toNat / 64 % 64), byte (0x80 + c.toNat % 64)]
  else
    [byte (0xF0 + c.toNat / 262144), byte (0x80 + c.toNat / 4096 % 64),
      byte (0x80 + c.toNat / 64 % 64), byte (0x80 + c.toNat % 64)]

/-- UTF-8 encoding of a text. -/
def utf8Encode : List Char → GoString
  | [] => []
  | c :: cs => encodeRune c ++ utf8Encode cs

/-- The Go string holding a text: its UTF-8 encoding. A string literal of the source is
such a string. -/
def utf8 (s : String) : GoString :=
  utf8Encode s.data

/-- Whether a byte is a continuation byte `10xxxxxx`. -/
def isCont (b : Byte) : Bool :=
  decide (0x80 ≤ b.val ∧ b.val ≤ 0xBF)

/-- The function `utf8.DecodeRune`: the scalar value encoded at the head of the bytes and
the number of bytes of its encoding, or `none` where Go returns `(RuneError, 1)` or, on
no bytes at all, `(RuneError, 0)`. An encoding is accepted when its continuation bytes
are well formed and it is the shortest encoding of a scalar value: no overlong form, no
surrogate, nothing above U+10FFFF. -/
def decodeRune : List Byte → Option (Char × Nat)
  | [] => none
  | b0 :: rest =>
    if b0.val < 0x80 then some (Char.ofNat b0.val, 1)
    else if b0.val < 0xC0 then none
    else if b0.val < 0xE0 then
      match rest with
      | b1 :: _ =>
        if isCont b1 = true ∧ 0x80 ≤ (b0.val - 0xC0) * 64 + (b1.val - 0x80) then
          some (Char.ofNat ((b0.val - 0xC0) * 64 + (b1.val - 0x80)), 2)
        else none
      | [] => none
    else if b0.val < 0xF0 then
      match rest with
      | b1 :: b2 :: _ =>
        if isCont b1 = true ∧ isCont b2 = true ∧
            0x800 ≤ (b0.val - 0xE0) * 4096 + (b1.val - 0x80) * 64 + (b2.val - 0x80) ∧
            ¬ (0xD800 ≤ (b0.val - 0xE0) * 4096 + (b1.val - 0x80) * 64 + (b2.val - 0x80) ∧
              (b0.val - 0xE0) * 4096 + (b1.val - 0x80) * 64 + (b2.val - 0x80) ≤ 0xDFFF) then
          some (Char.ofNat ((b0.val - 0xE0) * 4096 + (b1.val - 0x80) * 64 + (b2.val - 0x80)), 3)
        else none
      | _ => none
    else if b0.val < 0xF8 then
      match rest with
      | b1 :: b2 :: b3 :: _ =>
        if isCont b1 = true ∧ isCont b2 = true ∧ isCont b3 = true ∧
            0x10000 ≤ (b0.val - 0xF0) * 262144 + (b1.val - 0x80) * 4096
              + (b2.val - 0x80) * 64 + (b3.val - 0x80) ∧
            (b0.val - 0xF0) * 262144 + (b1.val - 0x80) * 4096
              + (b2.val - 0x80) * 64 + (b3.val - 0x80) ≤ 0x10FFFF then
          some (Char.ofNat ((b0.val - 0xF0) * 262144 + (b1.val - 0x80) * 4096
            + (b2.val - 0x80) * 64 + (b3.val - 0x80)), 4)
        else none
      | _ => none
    else none

/-- The runes of a Go string as the JSON encoder reads them: every well-formed encoding
gives its scalar value, every other byte gives U+FFFD. The fuel bounds the number of
runes; the length of the string is enough. -/
def decodeRunesAux : Nat → List Byte → List Char
  | 0, _ => []
  | _, [] => []
  | fuel + 1, b :: bs =>
    match decodeRune (b :: bs) with
    | some (c, w) => c :: decodeRunesAux fuel ((b :: bs).drop w)
    | none => Char.ofNat 0xFFFD :: decodeRunesAux fuel bs

/-- The text the JSON encoder writes for a Go string: the string coerced to valid UTF-8,
each invalid byte replaced by U+FFFD. -/
def toValidUTF8 (bs : GoString) : String :=
  ⟨decodeRunesAux bs.length bs⟩

/-- The scan of `utf8.Valid`: no byte is left outside a well-formed encoding. -/
def validAux : Nat → List Byte → Bool
  | 0, _ => true
  | _, [] => true
  | fuel + 1, b :: bs =>
    match decodeRune (b :: bs) with
    | some (_, w) => validAux fuel ((b :: bs).drop w)
    | none => false

/-- The function `utf8.Valid`: whether the bytes are valid UTF-8. -/
def validUTF8 (bs : GoString) : Bool :=
  validAux bs.length bs

/-- The three element kinds of the pointer fields used by the records. -/
inductive Kind where
  | int
  | string
  | bool
deriving DecidableEq, Repr

/-- A Go scalar held behind a non-nil pointer field. -/
inductive Value where
  | int (n : GoInt)
  | string (s : GoString)
  | bool (b : Bool)
deriving DecidableEq, Repr

/-- Kind of a scalar. -/
def Value.kind : Value → Kind
  | .int _ => .int
  | .string _ => .string
  | .bool _ => .bool

/-- Zero value of a kind (`0`, `""`, `false`), as produced by `reflect.New`. -/
def Kind.zero : Kind → Value
  | .int => .int ⟨0, by decide⟩
  | .string => .string []
  | .bool => .bool false

/-- Typed view of a scalar as an `int`. -/
def Value.asInt : Value → Option GoInt
  | .int n => some n
  | _ => none

/-- Typed view of a scalar as a `string`. -/
def Value.asString : Value → Option GoString
  | .string s => some s
  | _ => none

/-- Typed view of a scalar as a `bool`. -/
def Value.asBool : Value → Option Bool
  | .bool b => some b
  | _ => none

/-! ## JSON values -/

/-- A JSON value as seen by a record of scalar fields. `other` stands for every value
that none of the scalar kinds accepts: arrays, objects and non-integer numbers. -/
inductive JSON where
  | null
  | bool (b : Bool)
  | number (n : Int)
  | string (s : String)
  | other
deriving DecidableEq, Repr

/-- A JSON object: its members in document order. -/
abbrev Object : Type := List (String × JSON)

/-- Encoding of a scalar, as `json.Marshal` writes the pointee of a non-nil pointer. A
string is coerced to valid UTF-8, invalid bytes being replaced by U+FFFD. -/
def Value.toJSON : Value → JSON
  | .int n => .number n.val
  | .string s => .string (toValidUTF8 s)
  | .bool b => .bool b

/-- Whether a scalar is written without loss: a string has to be valid UTF-8. -/
def Value.valid : Value → Bool
  | .string s => validUTF8 s
  | _ => true

/-- Decoding of a non-null JSON value into a scalar of the given kind, as the decoder's
`literalStore` does: a number must be an integer in the range of `int`, a string goes
into a `string` as the UTF-8 encoding of its text, a boolean into a `bool`; everything
else is an `UnmarshalTypeError`. -/
def literalStore : Kind → JSON → Option Value
  | .int, .number n => if h : minInt ≤ n ∧ n ≤ maxInt then some (.int ⟨n, h⟩) else none
  | .string, .string s => some (.string (utf8 s))
  | .bool, .bool b => some (.bool b)
  | _, _ => none

/-! ## Struct fields and their tags -/

/-- One exported struct field of pointer type together with its `json` tag. -/
structure FieldInfo (α : Type) where
  /-- The key given by the tag. -/
  key : String
  /-- Whether the tag carries `omitempty`. -/
  omitempty : Bool
  /-- Element kind of the pointer. -/
  kind : Kind
  /-- Reads the field: `none` is the nil pointer. -/
  get : α → Option Value
  /-- Assigns the field. -/
  set : Option Value → α → α

/-- A field of type `*int`. -/
def intField {α : Type} (key : String) (omitempty : Bool) (get : α → Option GoInt)
    (set : Option GoInt → α → α) : FieldInfo α :=
  { key := key, omitempty := omitempty, kind := .int,
    get := fun r => (get r).map Value.int,
    set := fun v r => set (v.bind Value.asInt) r }

/-- A field of type `*string`. -/
def stringField {α : Type} (key : String) (omitempty : Bool) (get : α → Option GoString)
    (set : Option GoString → α → α) : FieldInfo α :=
  { key := key, omitempty := omitempty, kind := .string,
    get := fun r => (get r).map Value.string,
    set := fun v r => set (v.bind Value.asString) r }

/-- A field of type `*bool`. -/
def boolField {α : Type} (key : String) (omitempty : Bool) (get : α → Option Bool)
    (set : Option Bool → α → α) : FieldInfo α :=
  { key := key, omitempty := omitempty, kind := .bool,
    get := fun r => (get r).map Value.bool,
    set := fun v r => set (v.bind Value.asBool) r }

/-! ## encoding/json on structs of pointer fields -/

/-- The member a field contributes to the encoded object: a nil pointer is left out
under `omitempty` and written as `null` otherwise; a non-nil pointer is written as
its pointee, whatever the pointee's value. -/
def emit {α : Type} (r : α) (f : FieldInfo α) : Option (String × JSON) :=
  match f.get r with
  | some v => some (f.key, v.toJSON)
  | none => if f.omitempty then none else some (f.key, JSON.null)

/-- Encoding of a struct: the members of its fields in declaration order. -/
def marshalFields {α : Type} (fs : List (FieldInfo α)) (r : α) : Object :=
  fs.filterMap (emit r)

/-- Case folding of a character as far as it can meet an ASCII key: an ASCII capital
goes to its small letter, and the two characters outside ASCII that Unicode folds onto
ASCII letters go there too, the Kelvin sign U+212A to `k` and the long s U+017F to `s`.
Every other character is left alone. -/
def foldChar (c : Char) : Char :=
  if 65 ≤ c.toNat ∧ c.toNat ≤ 90 then Char.ofNat (c.toNat + 32)
  else if c.toNat = 0x212A then 'k'
  else if c.toNat = 0x017F then 's'
  else c

/-- Comparison of a field key with a member key under Unicode simple case folding, as
the decoder does it. The keys of the fields are ASCII, and for an ASCII key the folding
above is all of it: no other character folds onto an ASCII one. -/
def equalFold (a b : String) : Bool :=
  a.data.map foldChar == b.data.map foldChar

/-- The field a member key is decoded into: the field whose key is exactly the member
key if there is one, otherwise the first field whose key matches ignoring case. -/
def lookupField {α : Type} (fs : List (FieldInfo α)) (k : String) : Option (FieldInfo α) :=
  match fs.find? (fun f => f.key == k) with
  | some f => some f
  | none => fs.find? (fun f => equalFold f.key k)

/-- The error of a decode: the key of the first member whose value did not fit. -/
structure UnmarshalTypeError where
  field : String
deriving DecidableEq, Repr

/-- Decoding of one member into the struct. A key without a field is skipped; `null`
sets the pointer to nil; any other value first makes a nil pointer point to a new zero
value and then stores the decoded value in the pointee. When the value does not fit,
the pointee is left as it is and the first such error is remembered while decoding
goes on with the next member. -/
def unmarshalMember {α : Type} (fs : List (FieldInfo α)) (st : α × Option UnmarshalTypeError)
    (kv : String × JSON) : α × Option UnmarshalTypeError :=
  match lookupField fs kv.1 with
  | none => st
  | some f =>
    match kv.2 with
    | JSON.null => (f.set none st.1, st.2)
    | j =>
      match literalStore f.kind j with
      | some v => (f.set (some v) st.1, st.2)
      | none =>
        (match f.get st.1 with
          | some _ => st.1
          | none => f.set (some f.kind.zero) st.1,
          match st.2 with
          | some e => some e
          | none => some ⟨f.key⟩)

/-- Decoding of an object into a struct, member by member in document order. -/
def unmarshalFields {α : Type} (fs : List (FieldInfo α)) (o : Object) (r : α) :
    α × Option UnmarshalTypeError :=
  o.foldl (unmarshalMember fs) (r, none)

/-- The comparison `reflect.DeepEqual` makes on two structs of pointer fields: field by
field, two pointers being equal when both are nil or both are non-nil with equal
pointees. -/
def deepEqualFields {α : Type} (fs : List (FieldInfo α)) (a b : α) : Bool :=
  fs.all (fun f => f.get a == f.get b)

/-! ## The records of admin.go -/

/-- TeamLDAPMapping represents the mapping between a GitHub team and an LDAP group. -/
structure TeamLDAPMapping where
  ID : Option GoInt
  LDAPDN : Option GoString
  URL : Option GoString
  Name : Option GoString
  Slug : Option GoString
  Description : Option GoString
  Privacy : Option GoString
  Permission : Option GoString
  MembersURL : Option GoString
  RepositoriesURL : Option GoString
deriving DecidableEq, Repr

/-- The value `new(TeamLDAPMapping)` points to: every pointer nil. -/
def TeamLDAPMapping.zero : TeamLDAPMapping :=
  { ID := none, LDAPDN := none, URL := none, Name := none, Slug := none,
    Description := none, Privacy := none, Permission := none,
    MembersURL := none, RepositoriesURL := none }

/-- The fields of `TeamLDAPMapping` with their tags, in declaration order. -/
def TeamLDAPMapping.fields : List (FieldInfo TeamLDAPMapping) :=
  [ intField "id" true (fun m => m.ID) (fun v m => { m with ID := v }),
    stringField "ldap_dn" true (fun m => m.LDAPDN) (fun v m => { m with LDAPDN := v }),
    stringField "url" true (fun m => m.URL) (fun v m => { m with URL := v }),
    stringField "name" true (fun m => m.Name) (fun v m => { m with Name := v }),
    stringField "slug" true (fun m => m.Slug) (fun v m => { m with Slug := v }),
    stringField "description" true (fun m => m.Description)
      (fun v m => { m with Description := v }),
    stringField "privacy" true (fun m => m.Privacy) (fun v m => { m with Privacy := v }),
    stringField "permission" true (fun m => m.Permission)
      (fun v m => { m with Permission := v }),
    stringField "members_url" true (fun m => m.MembersURL)
      (fun v m => { m with MembersURL := v }),
    stringField "repositories_url" true (fun m => m.RepositoriesURL)
      (fun v m => { m with RepositoriesURL := v }) ]

/-- UserLDAPMapping represents the mapping between a GitHub user and an LDAP user. -/
structure UserLDAPMapping where
  ID : Option GoInt
  LDAPDN : Option GoString
  Login : Option GoString
  AvatarURL : Option GoString
  GravatarID : Option GoString
  /-- The Go field `Type`, a reserved word here. -/
  Type_ : Option GoString
  SiteAdmin : Option Bool
  URL : Option GoString
  EventsURL : Option GoString
  FollowingURL : Option GoString
  FollowersURL : Option GoString
  GistsURL : Option GoString
  OrganizationsURL : Option GoString
  ReceivedEventsURL : Option GoString
  ReposURL : Option GoString
  StarredURL : Option GoString
  SubscriptionsURL : Option GoString
deriving DecidableEq, Repr

/-- The value `new(UserLDAPMapping)` points to: every pointer nil. -/
def UserLDAPMapping.zero : UserLDAPMapping :=
  { ID := none, LDAPDN := none, Login := none, AvatarURL := none, GravatarID := none,
    Type_ := none, SiteAdmin := none, URL := none, EventsURL := none,
    FollowingURL := none, FollowersURL := none, GistsURL := none,
    OrganizationsURL := none, ReceivedEventsURL := none, ReposURL := none,
    StarredURL := none, SubscriptionsURL := none }

/-- The fields of `UserLDAPMapping` with their tags, in declaration order. -/
def UserLDAPMapping.fields : List (FieldInfo UserLDAPMapping) :=
  [ intField "id" true (fun m => m.ID) (fun v m => { m with ID := v }),
    stringField "ldap_dn" true (fun m => m.LDAPDN) (fun v m => { m with LDAPDN := v }),
    stringField "login" true (fun m => m.Login) (fun v m => { m with Login := v }),
    stringField "avatar_url" true (fun m => m.AvatarURL)
      (fun v m => { m with AvatarURL := v }),
    stringField "gravatar_id" true (fun m => m.GravatarID)
      (fun v m => { m with GravatarID := v }),
    stringField "type" true (fun m => m.Type_) (fun v m => { m with Type_ := v }),
    boolField "site_admin" true (fun m => m.SiteAdmin)
      (fun v m => { m with SiteAdmin := v }),
    stringField "url" true (fun m => m.URL) (fun v m => { m with URL := v }),
    stringField "events_url" true (fun m => m.EventsURL)
      (fun v m => { m with EventsURL := v }),
    stringField "following_url" true (fun m => m.FollowingURL)
      (fun v m => { m with FollowingURL := v }),
    stringField "followers_url" true (fun m => m.FollowersURL)
      (fun v m => { m with FollowersURL := v }),
    stringField "gists_url" true (fun m => m.GistsURL)
      (fun v m => { m with GistsURL := v }),
    stringField "organizations_url" true (fun m => m.OrganizationsURL)
      (fun v m => { m with OrganizationsURL := v }),
    stringField "received_events_url" true (fun m => m.ReceivedEventsURL)
      (fun v m => { m with ReceivedEventsURL := v }),
    stringField "repos_url" true (fun m => m.ReposURL)
      (fun v m => { m with ReposURL := v }),
    stringField "starred_url" true (fun m => m.StarredURL)
      (fun v m => { m with StarredURL := v }),
    stringField "subscriptions_url" true (fun m => m.SubscriptionsURL)
      (fun v m => { m with SubscriptionsURL := v }) ]

/-- AdminMessage is returned from a RenameUser call. Its tags are `json:"message"` and
`json:"url"`, without `omitempty`. -/
structure AdminMessage where
  Message : Option GoString
  URL : Option GoString
deriving DecidableEq, Repr

/-- The value `new(AdminMessage)` points to: every pointer nil. -/
def AdminMessage.zero : AdminMessage :=
  { Message := none, URL := none }

/-- The fields of `AdminMessage` with their tags, in declaration order. -/
def AdminMessage.fields : List (FieldInfo AdminMessage) :=
  [ stringField "message" false (fun m => m.Message) (fun v m => { m with Message := v }),
    stringField "url" false (fun m => m.URL) (fun v m => { m with URL := v }) ]

/-- Modelled from the spec: the `User` struct is declared outside `admin.go`. The spec
describes it as optional fields for account attributes (login, email, id, URLs, admin
flag) whose wire keys are the snake_case names, absent fields being left out of the
payload; the fields are those the tests of `admin.go` read and write. -/
structure User where
  Login : Option GoString
  ID : Option GoInt
  AvatarURL : Option GoString
  HTMLURL : Option GoString
  GravatarID : Option GoString
  Email : Option GoString
  /-- The Go field `Type`, a reserved word here. -/
  Type_ : Option GoString
  SiteAdmin : Option Bool
  URL : Option GoString
  EventsURL : Option GoString
  FollowingURL : Option GoString
  FollowersURL : Option GoString
  GistsURL : Option GoString
  OrganizationsURL : Option GoString
  ReceivedEventsURL : Option GoString
  ReposURL : Option GoString
  StarredURL : Option GoString
  SubscriptionsURL : Option GoString
deriving DecidableEq, Repr

/-- The value `new(User)` points to: every pointer nil. -/
def User.zero : User :=
  { Login := none, ID := none, AvatarURL := none, HTMLURL := none, GravatarID := none,
    Email := none, Type_ := none, SiteAdmin := none, URL := none, EventsURL := none,
    FollowingURL := none, FollowersURL := none, GistsURL := none,
    OrganizationsURL := none, ReceivedEventsURL := none, ReposURL := none,
    StarredURL := none, SubscriptionsURL := none }

/-- Modelled from the spec: the tags of the `User` struct, declared outside `admin.go`;
snake_case keys, every field left out of the payload when absent. -/
def User.fields : List (FieldInfo User) :=
  [ stringField "login" true (fun m => m.Login) (fun v m => { m with Login := v }),
    intField "id" true (fun m => m.ID) (fun v m => { m with ID := v }),
    stringField "avatar_url" true (fun m => m.AvatarURL)
      (fun v m => { m with AvatarURL := v }),
    stringField "html_url" true (fun m => m.HTMLURL) (fun v m => { m with HTMLURL := v }),
    stringField "gravatar_id" true (fun m => m.GravatarID)
      (fun v m => { m with GravatarID := v }),
    stringField "email" true (fun m => m.Email) (fun v m => { m with Email := v }),
    stringField "type" true (fun m => m.Type_) (fun v m => { m with Type_ := v }),
    boolField "site_admin" true (fun m => m.SiteAdmin)
      (fun v m => { m with SiteAdmin := v }),
    stringField "url" true (fun m => m.URL) (fun v m => { m with URL := v }),
    stringField "events_url" true (fun m => m.EventsURL)
      (fun v m => { m with EventsURL := v }),
    stringField "following_url" true (fun m => m.FollowingURL)
      (fun v m => { m with FollowingURL := v }),
    stringField "followers_url" true (fun m => m.FollowersURL)
      (fun v m => { m with FollowersURL := v }),
    stringField "gists_url" true (fun m => m.GistsURL)
      (fun v m => { m with GistsURL := v }),
    stringField "organizations_url" true (fun m => m.OrganizationsURL)
      (fun v m => { m with OrganizationsURL := v }),
    stringField "received_events_url" true (fun m => m.ReceivedEventsURL)
      (fun v m => { m with ReceivedEventsURL := v }),
    stringField "repos_url" true (fun m => m.ReposURL)
      (fun v m => { m with ReposURL := v }),
    stringField "starred_url" true (fun m => m.StarredURL)
      (fun v m => { m with StarredURL := v }),
    stringField "subscriptions_url" true (fun m => m.SubscriptionsURL)
      (fun v m => { m with SubscriptionsURL := v }) ]

/-- A struct type the JSON codec can walk: its fields with their tags. -/
class Record (α : Type) where
  fields : List (FieldInfo α)

instance : Record UserLDAPMapping := ⟨UserLDAPMapping.fields⟩

instance : Record TeamLDAPMapping := ⟨TeamLDAPMapping.fields⟩

instance : Record AdminMessage := ⟨AdminMessage.fields⟩

instance : Record User := ⟨User.fields⟩

/-- The function `json.Marshal` on a struct value. -/
def marshal {α : Type} [Record α] (r : α) : Object :=
  marshalFields (Record.fields : List (FieldInfo α)) r

/-- The function `json.Unmarshal` of an object into the struct a pointer refers to: the
struct after decoding, and the error if a member did not fit. -/
def unmarshal {α : Type} [Record α] (o : Object) (r : α) : α × Option UnmarshalTypeError :=
  unmarshalFields (Record.fields : List (FieldInfo α)) o r

/-- The function `reflect.DeepEqual` on two struct values. -/
def deepEqual {α : Type} [Record α] (a b : α) : Bool :=
  deepEqualFields (Record.fields : List (FieldInfo α)) a b

/-- Whether every string present in a struct is valid UTF-8. -/
def validStrings {α : Type} [Record α] (r : α) : Bool :=
  (Record.fields : List (FieldInfo α)).all (fun f => (f.get r).all Value.valid)

/-! ## fmt.Sprintf -/

/-- The character of a decimal digit. -/
def digitChar (d : Nat) : Char :=
  Char.ofNat (48 + d)

/-- The digit loop of `strconv.FormatInt` in base 10: digits are produced from the least
significant one and put in front of what has been written. The fuel bounds the number
of divisions by ten. -/
def formatBits : Nat → Nat → List Char → List Char
  | 0, _, acc => acc
  | fuel + 1, u, acc =>
    if u < 10 then digitChar u :: acc
    else formatBits fuel (u / 10) (digitChar (u % 10) :: acc)

/-- Rendering of an integer by the verb `%v`: a minus sign for a negative number, then
the decimal digits of its magnitude. -/
def formatInt (n : Int) : List Char :=
  if n < 0 then '-' :: formatBits (n.natAbs + 1) n.natAbs []
  else formatBits (n.natAbs + 1) n.natAbs []

/-- The base-10 rendering of an integer as arithmetic defines it: the digits of the
magnitude, most significant first, `0` for zero, after a minus sign when negative. -/
def decimal (t : Int) : String :=
  ⟨(if t < 0 then ['-'] else []) ++
    (if t = 0 then ['0'] else ((Nat.digits 10 t.natAbs).reverse.map digitChar))⟩

/-- An operand of `Sprintf`, of one of the two types the source passes. -/
inductive Arg where
  | string (s : GoString)
  | int (n : GoInt)
deriving DecidableEq, Repr

/-- Rendering of an operand by `%v` or `%s`. A string is written verbatim by both; an
integer is written in decimal by `%v` and flagged as a bad operand by `%s`. -/
def formatArg (verb : Char) : Arg → GoString
  | .string s => s
  | .int n =>
    if verb = 'v' then utf8Encode (formatInt n.val)
    else utf8 "%!s(int=" ++ utf8Encode (formatInt n.val) ++ utf8 ")"

/-- The scan of the format. Only the verbs `%v` and `%s`, the ones the source uses, are
interpreted: each consumes the next operand. Every other character is copied. -/
def sprintfAux : List Char → List Arg → GoString
  | [], _ => []
  | '%' :: 'v' :: rest, a :: args => formatArg 'v' a ++ sprintfAux rest args
  | '%' :: 's' :: rest, a :: args => formatArg 's' a ++ sprintfAux rest args
  | c :: rest, args => encodeRune c ++ sprintfAux rest args

/-- The function `fmt.Sprintf`. The format is a constant of the source and is given as
its text; the result is a Go string. -/
def Sprintf (format : String) (args : List Arg) : GoString :=
  sprintfAux format.data args

/-! ## The client -/

/-- The `body interface{}` handed to `NewRequest`: a pointer to one of the payload
structs, possibly nil. -/
inductive Body where
  | userLDAPMapping (m : Option UserLDAPMapping)
  | teamLDAPMapping (m : Option TeamLDAPMapping)
  | user (u : Option User)
deriving DecidableEq, Repr

/-- The two methods of `Client` that `admin.go` calls, over a client state `σ`.
`NewRequest(method, urlStr, body)` returns a request or an error; the method is always
one of the constants `"PATCH"` and `"POST"` and is given as its text. `Do(ctx, req, v)`
performs the exchange, may write into the struct `v` points to, and returns the
response (possibly nil) and an error (possibly nil). -/
structure Client (σ Ctx Req Resp Err : Type) where
  NewRequest : String → GoString → Body → σ → Except Err Req × σ
  Do : {α : Type} → [Record α] → Ctx → Req → α → σ → (Option Resp × Option Err × α) × σ

/-- AdminService handles communication with the admin related methods of the GitHub
API: a handle on the shared client. -/
structure AdminService (σ Ctx Req Resp Err : Type) where
  client : Client σ Ctx Req Resp Err

section Operations

variable {σ Ctx Req Resp Err : Type}

/-- UpdateUserLDAPMapping updates the mapping between a GitHub user and an LDAP user. -/
def AdminService.UpdateUserLDAPMapping (s : AdminService σ Ctx Req Resp Err) (ctx : Ctx)
    (user : GoString) (mapping : Option UserLDAPMapping) (st : σ) :
    (Option UserLDAPMapping × Option Resp × Option Err) × σ :=
  let u := Sprintf "admin/ldap/users/%v/mapping" [Arg.string user]
  match s.client.NewRequest "PATCH" u (Body.userLDAPMapping mapping) st with
  | (Except.error err, st1) => ((none, none, some err), st1)
  | (Except.ok req, st1) =>
    let m := UserLDAPMapping.zero
    match s.client.Do ctx req m st1 with
    | ((resp, some err, _), st2) => ((none, resp, some err), st2)
    | ((resp, none, m), st2) => ((some m, resp, none), st2)

/-- UpdateTeamLDAPMapping updates the mapping between a GitHub team and an LDAP group. -/
def AdminService.UpdateTeamLDAPMapping (s : AdminService σ Ctx Req Resp Err) (ctx : Ctx)
    (team : GoInt) (mapping : Option TeamLDAPMapping) (st : σ) :
    (Option TeamLDAPMapping × Option Resp × Option Err) × σ :=
  let u := Sprintf "admin/ldap/teams/%v/mapping" [Arg.int team]
  match s.client.NewRequest "PATCH" u (Body.teamLDAPMapping mapping) st with
  | (Except.error err, st1) => ((none, none, some err), st1)
  | (Except.ok req, st1) =>
    let m := TeamLDAPMapping.zero
    match s.client.Do ctx req m st1 with
    | ((resp, some err, _), st2) => ((none, resp, some err), st2)
    | ((resp, none, m), st2) => ((some m, resp, none), st2)

/-- CreateUser creates a new user on Github Enterprise. -/
def AdminService.CreateUser (s : AdminService σ Ctx Req Resp Err) (ctx : Ctx)
    (user : Option User) (st : σ) : (Option User × Option Resp × Option Err) × σ :=
  let u := utf8 "admin/users"
  match s.client.NewRequest "POST" u (Body.user user) st with
  | (Except.error err, st1) => ((none, none, some err), st1)
  | (Except.ok req, st1) =>
    let usr := User.zero
    match s.client.Do ctx req usr st1 with
    | ((resp, some err, _), st2) => ((none, resp, some err), st2)
    | ((resp, none, usr), st2) => ((some usr, resp, none), st2)

/-- RenameUser renames a user on Github Enterprise. -/
def AdminService.RenameUser (s : AdminService σ Ctx Req Resp Err) (ctx : Ctx)
    (oldLogin newLogin : GoString) (st : σ) :
    (Option AdminMessage × Option Resp × Option Err) × σ :=
  let u := Sprintf "admin/users/%s" [Arg.string oldLogin]
  match s.client.NewRequest "PATCH" u
      (Body.user (some { User.zero with Login := some newLogin })) st with
  | (Except.error err, st1) => ((none, none, some err), st1)
  | (Except.ok req, st1) =>
    let msg := AdminMessage.zero
    match s.client.Do ctx req msg st1 with
    | ((resp, some err, _), st2) => ((none, resp, some err), st2)
    | ((resp, none, msg), st2) => ((some msg, resp, none), st2)

end Operations

/-! ## Observing the calls an operation makes -/

/-- A call received by the client. An exchange is journalled with the encoding of the
struct its target pointed to when `Do` was called. -/
inductive Event (Ctx Req : Type) where
  | newRequest (method : String) (urlStr : GoString) (body : Body)
  | exchange (ctx : Ctx) (req : Req) (target : Object)
deriving DecidableEq, Repr

/-- The client `c` with a journal: it behaves as `c` and appends every call it receives
to the journal kept beside the state of `c`. -/
def recording {σ Ctx Req Resp Err : Type} (c : Client σ Ctx Req Resp Err) :
    Client (σ × List (Event Ctx Req)) Ctx Req Resp Err :=
  { NewRequest := fun method urlStr body st =>
      ((c.NewRequest method urlStr body st.1).1,
        ((c.NewRequest method urlStr body st.1).2, st.2 ++ [Event.newRequest method urlStr body]))
    Do := fun ctx req v st =>
      ((c.Do ctx req v st.1).1,
        ((c.Do ctx req v st.1).2, st.2 ++ [Event.exchange ctx req (marshal v)])) }

/-- Number of exchanges in a journal. -/
def exchanges {Ctx Req : Type} (journal : List (Event Ctx Req)) : Nat :=
  (journal.filter (fun e => match e with
    | Event.exchange _ _ _ => true
    | Event.newRequest _ _ _ => false)).length

/-! ## A transport answering from a table -/

/-- What the transport puts on the wire for a request. -/
structure HTTPRequest where
  method : String
  urlStr : GoString
  /-- The encoded body; `none` when the body pointer is nil. -/
  body : Option Object
deriving DecidableEq, Repr

/-- The response wrapper handed back by `Do`. -/
structure Response where
  statusCode : Nat
deriving DecidableEq, Repr

/-- The errors of the transport. -/
inductive TransportError where
  | failure (reason : String)
  | decode (e : UnmarshalTypeError)
deriving DecidableEq, Repr

/-- Encoding of the body handed to `NewRequest`. -/
def Body.encode : Body → Option Object
  | .userLDAPMapping m => m.map marshal
  | .teamLDAPMapping m => m.map marshal
  | .user u => u.map marshal

/-- Modelled from the spec: `Client.NewRequest` and `Client.Do` are declared outside
`admin.go`. The spec has the transport collaborator construct the request from
(method, path, body-record) and decode the response body into the target record; a
failure of the exchange (network error, non-success status) is returned as an error
together with whatever response there is. The server is a function from the request to
the response and either a failure or the JSON object of the body, as the handlers of the
tests are. -/
def serverClient (server : HTTPRequest → Option Response × Except String Object) :
    Client Unit Unit HTTPRequest Response TransportError :=
  { NewRequest := fun method urlStr body st =>
      (Except.ok { method := method, urlStr := urlStr, body := body.encode }, st)
    Do := fun _ req v st =>
      match server req with
      | (resp, Except.error reason) => ((resp, some (TransportError.failure reason), v), st)
      | (resp, Except.ok o) =>
        ((resp, (unmarshal o v).2.map TransportError.decode, (unmarshal o v).1), st) }

/-- A server in the manner of the handlers of the tests: it answers the one request it
expects with the given response and body, and fails on every other request. -/
def expecting (expected : HTTPRequest) (resp : Response) (answer : Object) :
    HTTPRequest → Option Response × Except String Object :=
  fun req =>
    if req = expected then (some resp, Except.ok answer)
    else (none, Except.error "unexpected request")

/-- A server that cannot be reached. -/
def unreachable : HTTPRequest → Option Response × Except String Object :=
  fun _ => (none, Except.error "connection refused")

/-- A server whose answer to an LDAP mapping update does not fit the record: `ldap_dn`
is not a string. -/
def misfitMapping : HTTPRequest → Option Response × Except String Object :=
  fun _ => (some (Response.mk 200),
    Except.ok [("id", JSON.number 1), ("ldap_dn", JSON.other)])

/-- A server whose answer to a rename does not fit `AdminMessage`: `url` is a number. -/
def misfitMessage : HTTPRequest → Option Response × Except String Object :=
  fun _ => (some (Response.mk 200),
    Except.ok [("message", JSON.string "queued"), ("url", JSON.number 3)])

/-- A server that answers every request with status 500. -/
def serverError : HTTPRequest → Option Response × Except String Object :=
  fun _ => (some (Response.mk 500), Except.error "internal server error")

/-- A client whose `NewRequest` rejects every request, as it does for a URL that does
not parse; its `Do` is that of a client in front of an unreachable server. -/
def refusingClient : Client Unit Unit HTTPRequest Response TransportError :=
  { NewRequest := fun _ _ _ st => (Except.error (TransportError.failure "bad request"), st)
    Do := fun ctx req v st => (serverClient unreachable).Do ctx req v st }

/-- The user object the server of `TestAdminService_CreateUser` answers with; it has no
`email` member. -/
def octocatResponse : Object :=
  [ ("login", JSON.string "octocat"),
    ("id", JSON.number 1),
    ("avatar_url", JSON.string "https://github.com/images/error/octocat_happy.gif"),
    ("gravatar_id", JSON.string ""),
    ("url", JSON.string "https://api.github.com/users/octocat"),
    ("html_url", JSON.string "https://github.com/octocat"),
    ("followers_url", JSON.string "https://api.github.com/users/octocat/followers"),
    ("following_url",
      JSON.string "https://api.github.com/users/octocat/following\x7b/other_user\x7d"),
    ("gists_url", JSON.string "https://api.github.com/users/octocat/gists\x7b/gist_id\x7d"),
    ("starred_url",
      JSON.string "https://api.github.com/users/octocat/starred\x7b/owner\x7d\x7b/repo\x7d"),
    ("subscriptions_url", JSON.string "https://api.github.com/users/octocat/subscriptions"),
    ("organizations_url", JSON.string "https://api.github.com/users/octocat/orgs"),
    ("repos_url", JSON.string "https://api.github.com/users/octocat/repos"),
    ("events_url", JSON.string "https://api.github.com/users/octocat/events\x7b/privacy\x7d"),
    ("received_events_url",
      JSON.string "https://api.github.com/users/octocat/received_events"),
    ("type", JSON.string "User"),
    ("site_admin", JSON.bool false) ]

/-- The `User` that `TestAdminService_CreateUser` wants. -/
def octocatUser : User :=
  { Login := some (utf8 "octocat"),
    ID := some ⟨1, by decide⟩,
    AvatarURL := some (utf8 "https://github.com/images/error/octocat_happy.gif"),
    HTMLURL := some (utf8 "https://github.com/octocat"),
    GravatarID := some (utf8 ""),
    Email := none,
    Type_ := some (utf8 "User"),
    SiteAdmin := some false,
    URL := some (utf8 "https://api.github.com/users/octocat"),
    EventsURL := some (utf8 "https://api.github.com/users/octocat/events\x7b/privacy\x7d"),
    FollowingURL := some (utf8 "https://api.github.com/users/octocat/following\x7b/other_user\x7d"),
    FollowersURL := some (utf8 "https://api.github.com/users/octocat/followers"),
    GistsURL := some (utf8 "https://api.github.com/users/octocat/gists\x7b/gist_id\x7d"),
    OrganizationsURL := some (utf8 "https://api.github.com/users/octocat/orgs"),
    ReceivedEventsURL := some (utf8 "https://api.github.com/users/octocat/received_events"),
    ReposURL := some (utf8 "https://api.github.com/users/octocat/repos"),
    StarredURL := some (utf8 "https://api.github.com/users/octocat/starred\x7b/owner\x7d\x7b/repo\x7d"),
    SubscriptionsURL := some (utf8 "https://api.github.com/users/octocat/subscriptions") }

/-! ## What a response says about a field -/

/-- Whether a member key is decoded into the field `f`. -/
def resolves {α : Type} (fs : List (FieldInfo α)) (f : FieldInfo α) (k : String) : Bool :=
  match lookupField fs k with
  | some g => g.key == f.key
  | none => false

/-- The value an object gives for the field `f`: the value of the last member decoded
into `f`, if there is such a member. -/
def lastMember {α : Type} (fs : List (FieldInfo α)) (f : FieldInfo α) (o : Object) :
    Option JSON :=
  ((o.filter (fun kv => resolves fs f kv.1)).getLast?).map Prod.snd

/-- The value of a key in an object as JSON readers take it: that of the last member
carrying exactly this key. -/
def memberValue (k : String) (o : Object) : Option JSON :=
  ((o.filter (fun kv => kv.1 == k)).getLast?).map Prod.snd

/-! ## Well-formed field tables -/

/-- What the codec relies on in a field table: keys are pairwise distinct, each field
holds scalars of its kind, assigning a field changes that field and no other, and a
struct is determined by the values of its fields. -/
structure Lawful {α : Type} (fs : List (FieldInfo α)) : Prop where
  nodup : (fs.map FieldInfo.key).Nodup
  get_kind : ∀ f ∈ fs, ∀ r v, f.get r = some v → v.kind = f.kind
  get_set : ∀ f ∈ fs, ∀ r v, (∀ x, v = some x → x.kind = f.kind) → f.get (f.set v r) = v
  get_set_ne : ∀ f ∈ fs, ∀ g ∈ fs, f.key ≠ g.key → ∀ r v, g.get (f.set v r) = g.get r
  ext : ∀ a b, (∀ f ∈ fs, f.get a = f.get b) → a = b

/-! ## UTF-8 -/

theorem toNat_valid (c : Char) :
    c.toNat < 0xD800 ∨ (0xDFFF < c.toNat ∧ c.toNat < 0x110000) := by
  have h := c.valid
  simp only [UInt32.isValidChar, Nat.isValidChar] at h
  exact h

theorem toNat_ofNat_of_valid (n : Nat) (h : n < 0xD800 ∨ (0xDFFF < n ∧ n < 0x110000)) :
    (Char.ofNat n).toNat = n := by
  rw [Char.ofNat, dif_pos h]
  rfl


theorem byte_val (n : Nat) : (byte n).val = n % 256 := rfl

theorem decodeRune_encodeRune (c : Char) (rest : List Byte) :
    decodeRune (encodeRune c ++ rest) = some (c, (encodeRune c).length) := by
  have hv := toNat_valid c
  unfold encodeRune
  by_cases h1 : c.toNat < 0x80
  · rw [if_pos h1]
    have hb : (byte c.toNat).val = c.toNat := by rw [byte_val]; omega
    simp only [List.cons_append, List.nil_append, decodeRune, hb, if_pos h1,
      Char.ofNat_toNat, List.length_cons, List.length_nil]
  · rw [if_neg h1]
    by_cases h2 : c.toNat < 0x800
    · rw [if_pos h2]
      have hb0 : (byte (0xC0 + c.toNat / 64)).val = 0xC0 + c.toNat / 64 := by
        rw [byte_val]; omega
      have hb1 : (byte (0x80 + c.toNat % 64)).val = 0x80 + c.toNat % 64 := by
        rw [byte_val]; omega
      have hcp : (0xC0 + c.toNat / 64 - 0xC0) * 64 + (0x80 + c.toNat % 64 - 0x80)
          = c.toNat := by omega
      simp only [List.cons_append, List.nil_append, decodeRune, hb0, hb1, isCont, hcp,
        Char.ofNat_toNat, List.length_cons, List.length_nil]
      rw [if_neg (by omega), if_neg (by omega), if_pos (by omega),
        if_pos ⟨by simp; omega, by omega⟩]
    · rw [if_neg h2]
      by_cases h3 : c.toNat < 0x10000
      · rw [if_pos h3]
        have hb0 : (byte (0xE0 + c.toNat / 4096)).val = 0xE0 + c.toNat / 4096 := by
          rw [byte_val]; omega
        have hb1 : (byte (0x80 + c.toNat / 64 % 64)).val = 0x80 + c.toNat / 64 % 64 := by
          rw [byte_val]; omega
        have hb2 : (byte (0x80 + c.toNat % 64)).val = 0x80 + c.toNat % 64 := by
          rw [byte_val]; omega
        have hcp : (0xE0 + c.toNat / 4096 - 0xE0) * 4096
            + (0x80 + c.toNat / 64 % 64 - 0x80) * 64 + (0x80 + c.toNat % 64 - 0x80)
            = c.toNat := by omega
        simp only [List.cons_append, List.nil_append, decodeRune, hb0, hb1, hb2, isCont,
          hcp, Char.ofNat_toNat, List.length_cons, List.length_nil]
        rw [if_neg (by omega), if_neg (by omega), if_neg (by omega), if_pos (by omega),
          if_pos ⟨by simp; omega, by simp; omega, by omega, by omega⟩]
      · rw [if_neg h3]
        have hb0 : (byte (0xF0 + c.toNat / 262144)).val = 0xF0 + c.toNat / 262144 := by
          rw [byte_val]; omega
        have hb1 : (byte (0x80 + c.toNat / 4096 % 64)).val
            = 0x80 + c.toNat / 4096 % 64 := by
          rw [byte_val]; omega
        have hb2 : (byte (0x80 + c.toNat / 64 % 64)).val = 0x80 + c.toNat / 64 % 64 := by
          rw [byte_val]; omega
        have hb3 : (byte (0x80 + c.toNat % 64)).val = 0x80 + c.toNat % 64 := by
          rw [byte_val]; omega
        have hcp : (0xF0 + c.toNat / 262144 - 0xF0) * 262144
            + (0x80 + c.toNat / 4096 % 64 - 0x80) * 4096
            + (0x80 + c.toNat / 64 % 64 - 0x80) * 64 + (0x80 + c.toNat % 64 - 0x80)
            = c.toNat := by omega
        simp only [List.cons_append, List.nil_append, decodeRune, hb0, hb1, hb2, hb3,
          isCont, hcp, Char.ofNat_toNat, List.length_cons, List.length_nil]
        rw [if_neg (by omega), if_neg (by omega), if_neg (by omega), if_neg (by omega),
          if_pos (by omega),
          if_pos ⟨by simp; omega, by simp; omega, by simp; omega, by omega, by omega⟩]


theorem byte_eq (b : Byte) (n : Nat) (h : n = b.val) : byte n = b := by
  apply Fin.ext
  rw [byte_val, h]
  exact Nat.mod_eq_of_lt b.isLt

theorem decodeRune_sound (bs : List Byte) (c : Char) (w : Nat)
    (h : decodeRune bs = some (c, w)) : encodeRune c ++ bs.drop w = bs ∧ 1 ≤ w := by
  cases bs with
  | nil => simp [decodeRune] at h
  | cons b0 rest =>
    have hb0 := b0.isLt
    simp only [decodeRune] at h
    by_cases h1 : b0.val < 0x80
    · rw [if_pos h1] at h
      simp only [Option.some.injEq, Prod.mk.injEq] at h
      obtain ⟨rfl, rfl⟩ := h
      have hn : (Char.ofNat b0.val).toNat = b0.val :=
        toNat_ofNat_of_valid _ (Or.inl (by omega))
      unfold encodeRune
      rw [hn, if_pos h1, byte_eq b0 _ rfl]
      exact ⟨rfl, Nat.le_refl _⟩
    · rw [if_neg h1] at h
      by_cases h2 : b0.val < 0xC0
      · rw [if_pos h2] at h
        exact absurd h (by simp)
      · rw [if_neg h2] at h
        by_cases h3 : b0.val < 0xE0
        · rw [if_pos h3] at h
          cases rest with
          | nil => exact absurd h (by simp)
          | cons b1 rest =>
            have hb1 := b1.isLt
            simp only at h
            split at h
            · rename_i hc
              simp only [isCont, decide_eq_true_eq] at hc
              simp only [Option.some.injEq, Prod.mk.injEq] at h
              obtain ⟨rfl, rfl⟩ := h
              have hn := toNat_ofNat_of_valid
                ((b0.val - 0xC0) * 64 + (b1.val - 0x80)) (Or.inl (by omega))
              unfold encodeRune
              rw [hn, if_neg (by omega), if_pos (by omega),
                byte_eq b0 _ (by omega), byte_eq b1 _ (by omega)]
              exact ⟨rfl, by omega⟩
            · exact absurd h (by simp)
        · rw [if_neg h3] at h
          by_cases h4 : b0.val < 0xF0
          · rw [if_pos h4] at h
            match rest, h with
            | [], h => exact absurd h (by simp)
            | [_], h => exact absurd h (by simp)
            | b1 :: b2 :: rest, h =>
              have hb1 := b1.isLt
              have hb2 := b2.isLt
              simp only at h
              split at h
              · rename_i hc
                simp only [isCont, decide_eq_true_eq] at hc
                simp only [Option.some.injEq, Prod.mk.injEq] at h
                obtain ⟨rfl, rfl⟩ := h
                have hn := toNat_ofNat_of_valid
                  ((b0.val - 0xE0) * 4096 + (b1.val - 0x80) * 64 + (b2.val - 0x80))
                  (by omega)
                unfold encodeRune
                rw [hn, if_neg (by omega), if_neg (by omega), if_pos (by omega),
                  byte_eq b0 _ (by omega), byte_eq b1 _ (by omega),
                  byte_eq b2 _ (by omega)]
                exact ⟨rfl, by omega⟩
              · exact absurd h (by simp)
          · rw [if_neg h4] at h
            by_cases h5 : b0.val < 0xF8
            · rw [if_pos h5] at h
              match rest, h with
              | [], h => exact absurd h (by simp)
              | [_], h => exact absurd h (by simp)
              | [_, _], h => exact absurd h (by simp)
              | b1 :: b2 :: b3 :: rest, h =>
                have hb1 := b1.isLt
                have hb2 := b2.isLt
                have hb3 := b3.isLt
                simp only at h
                split at h
                · rename_i hc
                  simp only [isCont, decide_eq_true_eq] at hc
                  simp only [Option.some.injEq, Prod.mk.injEq] at h
                  obtain ⟨rfl, rfl⟩ := h
                  have hn := toNat_ofNat_of_valid
                    ((b0.val - 0xF0) * 262144 + (b1.val - 0x80) * 4096
                      + (b2.val - 0x80) * 64 + (b3.val - 0x80))
                    (by omega)
                  unfold encodeRune
                  rw [hn, if_neg (by omega), if_neg (by omega), if_neg (by omega),
                    byte_eq b0 _ (by omega), byte_eq b1 _ (by omega),
                    byte_eq b2 _ (by omega), byte_eq b3 _ (by omega)]
                  exact ⟨rfl, by omega⟩
                · exact absurd h (by simp)
            · rw [if_neg h5] at h
              exact absurd h (by simp)

theorem decodeRunesAux_utf8Encode (cs : List Char) :
    ∀ fuel, (utf8Encode cs).length ≤ fuel → decodeRunesAux fuel (utf8Encode cs) = cs := by
  induction cs with
  | nil =>
    intro fuel _
    cases fuel <;> rfl
  | cons c cs ih =>
    intro fuel hfuel
    have hdec := decodeRune_encodeRune c (utf8Encode cs)
    have hpos := (decodeRune_sound _ _ _ hdec).2
    simp only [utf8Encode, List.length_append] at hfuel
    cases henc : encodeRune c with
    | nil => rw [henc] at hpos; simp at hpos
    | cons b bs =>
      cases fuel with
      | zero => rw [henc] at hfuel; simp at hfuel
      | succ fuel =>
        rw [henc] at hdec hfuel
        simp only [utf8Encode, henc, List.cons_append] at hdec ⊢
        simp only [decodeRunesAux, hdec]
        rw [← List.cons_append, List.drop_left' rfl, ih fuel (by
          simp only [List.length_cons] at hfuel
          omega)]

theorem toValidUTF8_utf8 (s : String) : toValidUTF8 (utf8 s) = s := by
  unfold toValidUTF8 utf8
  rw [decodeRunesAux_utf8Encode s.data _ (Nat.le_refl _)]

theorem utf8Encode_decodeRunesAux :
    ∀ (fuel : Nat) (bs : List Byte), bs.length ≤ fuel → validAux fuel bs = true →
      utf8Encode (decodeRunesAux fuel bs) = bs := by
  intro fuel
  induction fuel with
  | zero =>
    intro bs hlen _
    cases bs with
    | nil => rfl
    | cons b bs => simp at hlen
  | succ fuel ih =>
    intro bs hlen hv
    cases bs with
    | nil => rfl
    | cons b bs =>
      simp only [validAux] at hv
      cases hd : decodeRune (b :: bs) with
      | none => rw [hd] at hv; exact absurd hv (by simp)
      | some cw =>
        obtain ⟨c, w⟩ := cw
        rw [hd] at hv
        simp only at hv
        obtain ⟨hs, hw⟩ := decodeRune_sound _ _ _ hd
        simp only [decodeRunesAux, hd, utf8Encode]
        rw [ih _ (by
          simp only [List.length_drop, List.length_cons] at hlen ⊢
          omega) hv]
        exact hs

theorem utf8_toValidUTF8 (bs : GoString) (h : validUTF8 bs = true) :
    utf8 (toValidUTF8 bs) = bs :=
  utf8Encode_decodeRunesAux _ bs (Nat.le_refl _) h

theorem validAux_utf8Encode (cs : List Char) :
    ∀ fuel, validAux fuel (utf8Encode cs) = true := by
  induction cs with
  | nil =>
    intro fuel
    cases fuel <;> rfl
  | cons c cs ih =>
    intro fuel
    have hdec := decodeRune_encodeRune c (utf8Encode cs)
    cases fuel with
    | zero => simp [validAux]
    | succ fuel =>
      cases henc : encodeRune c with
      | nil =>
        have hpos := (decodeRune_sound _ _ _ hdec).2
        rw [henc] at hpos
        simp at hpos
      | cons b bs =>
        rw [henc] at hdec
        simp only [utf8Encode, henc, List.cons_append] at hdec ⊢
        simp only [validAux, hdec]
        rw [← List.cons_append, List.drop_left' rfl]
        exact ih fuel

theorem validUTF8_utf8 (s : String) : validUTF8 (utf8 s) = true :=
  validAux_utf8Encode s.data _

/-! ## Field tables of the records -/

theorem map_int_inj (a b : Option GoInt) : a.map Value.int = b.map Value.int ↔ a = b := by
  cases a <;> cases b <;> simp

theorem map_string_inj (a b : Option GoString) :
    a.map Value.string = b.map Value.string ↔ a = b := by
  cases a <;> cases b <;> simp

theorem map_bool_inj (a b : Option Bool) : a.map Value.bool = b.map Value.bool ↔ a = b := by
  cases a <;> cases b <;> simp

theorem intField_get_set {α : Type} (k : String) (o : Bool) (g : α → Option GoInt)
    (st : Option GoInt → α → α) (h : ∀ v r, g (st v r) = v) (r : α) (v : Option Value)
    (hv : ∀ x, v = some x → x.kind = Kind.int) :
    (intField k o g st).get ((intField k o g st).set v r) = v := by
  cases v with
  | none => simp [intField, h]
  | some x =>
    cases x with
    | int n => simp [intField, h, Value.asInt]
    | string s => exact absurd (hv _ rfl) (by simp [Value.kind])
    | bool b => exact absurd (hv _ rfl) (by simp [Value.kind])

theorem stringField_get_set {α : Type} (k : String) (o : Bool) (g : α → Option GoString)
    (st : Option GoString → α → α) (h : ∀ v r, g (st v r) = v) (r : α) (v : Option Value)
    (hv : ∀ x, v = some x → x.kind = Kind.string) :
    (stringField k o g st).get ((stringField k o g st).set v r) = v := by
  cases v with
  | none => simp [stringField, h]
  | some x =>
    cases x with
    | string s => simp [stringField, h, Value.asString]
    | int n => exact absurd (hv _ rfl) (by simp [Value.kind])
    | bool b => exact absurd (hv _ rfl) (by simp [Value.kind])

theorem boolField_get_set {α : Type} (k : String) (o : Bool) (g : α → Option Bool)
    (st : Option Bool → α → α) (h : ∀ v r, g (st v r) = v) (r : α) (v : Option Value)
    (hv : ∀ x, v = some x → x.kind = Kind.bool) :
    (boolField k o g st).get ((boolField k o g st).set v r) = v := by
  cases v with
  | none => simp [boolField, h]
  | some x =>
    cases x with
    | bool b => simp [boolField, h, Value.asBool]
    | int n => exact absurd (hv _ rfl) (by simp [Value.kind])
    | string s => exact absurd (hv _ rfl) (by simp [Value.kind])

theorem AdminMessage_lawful : Lawful AdminMessage.fields where
  nodup := by decide
  get_kind := by
    intro f hf r v h
    simp only [AdminMessage.fields, List.mem_cons, List.mem_singleton, List.not_mem_nil,
      or_false] at hf
    rcases hf with rfl | rfl <;>
      (simp only [stringField, intField, boolField, Option.map_eq_some'] at h
       obtain ⟨_, _, rfl⟩ := h
       rfl)
  get_set := by
    intro f hf r v hv
    simp only [AdminMessage.fields, List.mem_cons, List.mem_singleton, List.not_mem_nil,
      or_false] at hf
    rcases hf with rfl | rfl <;>
      exact stringField_get_set _ _ _ _ (fun _ _ => rfl) r v hv
  get_set_ne := by
    intro f hf g hg hne r v
    simp only [AdminMessage.fields, List.mem_cons, List.mem_singleton, List.not_mem_nil,
      or_false] at hf hg
    rcases hf with rfl | rfl <;> rcases hg with rfl | rfl <;>
      first
      | rfl
      | exact absurd rfl hne
  ext := by
    intro a b h
    cases a
    cases b
    simp only [AdminMessage.fields, List.mem_cons, List.mem_singleton, List.not_mem_nil,
      or_false, forall_eq_or_imp, forall_eq, stringField, intField, boolField,
      map_int_inj, map_string_inj, map_bool_inj] at h
    simp only [AdminMessage.mk.injEq]
    exact h

theorem TeamLDAPMapping_lawful : Lawful TeamLDAPMapping.fields where
  nodup := by decide
  get_kind := by
    intro f hf r v h
    simp only [TeamLDAPMapping.fields, List.mem_cons, List.mem_singleton, List.not_mem_nil,
      or_false] at hf
    rcases hf with rfl | rfl | rfl | rfl | rfl | rfl | rfl | rfl | rfl
        | rfl <;>
      (simp only [stringField, intField, boolField, Option.map_eq_some'] at h
       obtain ⟨_, _, rfl⟩ := h
       rfl)
  get_set := by
    intro f hf r v hv
    simp only [TeamLDAPMapping.fields, List.mem_cons, List.mem_singleton, List.not_mem_nil,
      or_false] at hf
    rcases hf with rfl | rfl | rfl | rfl | rfl | rfl | rfl | rfl | rfl
        | rfl <;>
      first
      | exact stringField_get_set _ _ _ _ (fun _ _ => rfl) r v hv
      | exact intField_get_set _ _ _ _ (fun _ _ => rfl) r v hv
  get_set_ne := by
    intro f hf g hg hne r v
    simp only [TeamLDAPMapping.fields, List.mem_cons, List.mem_singleton, List.not_mem_nil,
      or_false] at hf hg
    rcases hf with rfl | rfl | rfl | rfl | rfl | rfl | rfl | rfl | rfl
        | rfl <;>
      rcases hg with rfl | rfl | rfl | rfl | rfl | rfl | rfl | rfl | rfl
        | rfl <;>
      first
      | rfl
      | exact absurd rfl hne
  ext := by
    intro a b h
    cases a
    cases b
    simp only [TeamLDAPMapping.fields, List.mem_cons, List.mem_singleton, List.not_mem_nil,
      or_false, forall_eq_or_imp, forall_eq, stringField, intField, boolField,
      map_int_inj, map_string_inj, map_bool_inj] at h
    simp only [TeamLDAPMapping.mk.injEq]
    exact h

theorem UserLDAPMapping_lawful : Lawful UserLDAPMapping.fields where
  nodup := by decide
  get_kind := by
    intro f hf r v h
    simp only [UserLDAPMapping.fields, List.mem_cons, List.mem_singleton, List.not_mem_nil,
      or_false] at hf
    rcases hf with rfl | rfl | rfl | rfl | rfl | rfl | rfl | rfl | rfl
        | rfl | rfl | rfl | rfl | rfl | rfl | rfl | rfl <;>
      (simp only [stringField, intField, boolField, Option.map_eq_some'] at h
       obtain ⟨_, _, rfl⟩ := h
       rfl)
  get_set := by
    intro f hf r v hv
    simp only [UserLDAPMapping.fields, List.mem_cons, List.mem_singleton, List.not_mem_nil,
      or_false] at hf
    rcases hf with rfl | rfl | rfl | rfl | rfl | rfl | rfl | rfl | rfl
        | rfl | rfl | rfl | rfl | rfl | rfl | rfl | rfl <;>
      first
      | exact stringField_get_set _ _ _ _ (fun _ _ => rfl) r v hv
      | exact intField_get_set _ _ _ _ (fun _ _ => rfl) r v hv
      | exact boolField_get_set _ _ _ _ (fun _ _ => rfl) r v hv
  get_set_ne := by
    intro f hf g hg hne r v
    simp only [UserLDAPMapping.fields, List.mem_cons, List.mem_singleton, List.not_mem_nil,
      or_false] at hf hg
    rcases hf with rfl | rfl | rfl | rfl | rfl | rfl | rfl | rfl | rfl
        | rfl | rfl | rfl | rfl | rfl | rfl | rfl | rfl <;>
      rcases hg with rfl | rfl | rfl | rfl | rfl | rfl | rfl | rfl | rfl
        | rfl | rfl | rfl | rfl | rfl | rfl | rfl | rfl <;>
      first
      | rfl
      | exact absurd rfl hne
  ext := by
    intro a b h
    cases a
    cases b
    simp only [UserLDAPMapping.fields, List.mem_cons, List.mem_singleton, List.not_mem_nil,
      or_false, forall_eq_or_imp, forall_eq, stringField, intField, boolField,
      map_int_inj, map_string_inj, map_bool_inj] at h
    simp only [UserLDAPMapping.mk.injEq]
    exact h

theorem User_lawful : Lawful User.fields where
  nodup := by decide
  get_kind := by
    intro f hf r v h
    simp only [User.fields, List.mem_cons, List.mem_singleton, List.not_mem_nil,
      or_false] at hf
    rcases hf with rfl | rfl | rfl | rfl | rfl | rfl | rfl | rfl | rfl
        | rfl | rfl | rfl | rfl | rfl | rfl | rfl | rfl | rfl <;>
      (simp only [stringField, intField, boolField, Option.map_eq_some'] at h
       obtain ⟨_, _, rfl⟩ := h
       rfl)
  get_set := by
    intro f hf r v hv
    simp only [User.fields, List.mem_cons, List.mem_singleton, List.not_mem_nil,
      or_false] at hf
    rcases hf with rfl | rfl | rfl | rfl | rfl | rfl | rfl | rfl | rfl
        | rfl | rfl | rfl | rfl | rfl | rfl | rfl | rfl | rfl <;>
      first
      | exact stringField_get_set _ _ _ _ (fun _ _ => rfl) r v hv
      | exact intField_get_set _ _ _ _ (fun _ _ => rfl) r v hv
      | exact boolField_get_set _ _ _ _ (fun _ _ => rfl) r v hv
  get_set_ne := by
    intro f hf g hg hne r v
    simp only [User.fields, List.mem_cons, List.mem_singleton, List.not_mem_nil,
      or_false] at hf hg
    rcases hf with rfl | rfl | rfl | rfl | rfl | rfl | rfl | rfl | rfl
        | rfl | rfl | rfl | rfl | rfl | rfl | rfl | rfl | rfl <;>
      rcases hg with rfl | rfl | rfl | rfl | rfl | rfl | rfl | rfl | rfl
        | rfl | rfl | rfl | rfl | rfl | rfl | rfl | rfl | rfl <;>
      first
      | rfl
      | exact absurd rfl hne
  ext := by
    intro a b h
    cases a
    cases b
    simp only [User.fields, List.mem_cons, List.mem_singleton, List.not_mem_nil,
      or_false, forall_eq_or_imp, forall_eq, stringField, intField, boolField,
      map_int_inj, map_string_inj, map_bool_inj] at h
    simp only [User.mk.injEq]
    exact h

/-! ## The codec on a well-formed table -/

section Codec

variable {α : Type} {fs : List (FieldInfo α)}

theorem Lawful.eq_of_key (hl : Lawful fs) {f g : FieldInfo α} (hf : f ∈ fs) (hg : g ∈ fs)
    (h : f.key = g.key) : f = g :=
  List.inj_on_of_nodup_map hl.nodup hf hg h

theorem lookupField_mem {k : String} {f : FieldInfo α} (h : lookupField fs k = some f) :
    f ∈ fs := by
  unfold lookupField at h
  cases hx : fs.find? (fun f => f.key == k) with
  | some g =>
    rw [hx] at h
    simp only [Option.some.injEq] at h
    subst h
    exact List.mem_of_find?_eq_some hx
  | none =>
    rw [hx] at h
    exact List.mem_of_find?_eq_some h

theorem lookupField_self (hl : Lawful fs) {f : FieldInfo α} (hf : f ∈ fs) :
    lookupField fs f.key = some f := by
  unfold lookupField
  cases hx : fs.find? (fun g => g.key == f.key) with
  | some g =>
    have hk : g.key = f.key := by simpa using List.find?_some hx
    have hg : g ∈ fs := List.mem_of_find?_eq_some hx
    simp only [hl.eq_of_key hg hf hk]
  | none =>
    rw [List.find?_eq_none] at hx
    exact absurd (by simp) (hx f hf)

theorem toJSON_ne_null (v : Value) : v.toJSON ≠ JSON.null := by
  cases v <;> simp [Value.toJSON]

theorem literalStore_toJSON (v : Value) (hv : v.valid = true) :
    literalStore v.kind v.toJSON = some v := by
  cases v with
  | int n =>
    obtain ⟨n, hn⟩ := n
    simp [Value.kind, Value.toJSON, literalStore, hn]
  | string s =>
    simp only [Value.kind, Value.toJSON, literalStore]
    rw [utf8_toValidUTF8 s hv]
  | bool b => rfl

theorem literalStore_kind {k : Kind} {j : JSON} {v : Value} (h : literalStore k j = some v) :
    v.kind = k := by
  cases k <;> cases j <;> simp only [literalStore] at h <;>
    first
    | (cases h <;> rfl)
    | (split at h
       all_goals cases h
       all_goals rfl)

theorem literalStore_eq_toJSON {k : Kind} {j : JSON} {v : Value}
    (h : literalStore k j = some v) : j = v.toJSON := by
  cases k <;> cases j <;> simp only [literalStore] at h <;>
    first
    | (cases h <;> rfl)
    | (cases h
       simp only [Value.toJSON, toValidUTF8_utf8])
    | (split at h
       all_goals cases h
       all_goals rfl)

theorem literalStore_valid {k : Kind} {j : JSON} {v : Value}
    (h : literalStore k j = some v) : v.valid = true := by
  cases k <;> cases j <;> simp only [literalStore] at h <;>
    first
    | (cases h <;> rfl)
    | (cases h
       exact validUTF8_utf8 _)
    | (split at h
       all_goals cases h
       all_goals rfl)

theorem unmarshalMember_skip {k : String} (h : lookupField fs k = none)
    (st : α × Option UnmarshalTypeError) (j : JSON) :
    unmarshalMember fs st (k, j) = st := by
  simp only [unmarshalMember, h]

theorem unmarshalMember_null {k : String} {f : FieldInfo α} (h : lookupField fs k = some f)
    (st : α × Option UnmarshalTypeError) :
    unmarshalMember fs st (k, JSON.null) = (f.set none st.1, st.2) := by
  simp only [unmarshalMember, h]

theorem unmarshalMember_store {k : String} {f : FieldInfo α} {j : JSON} {v : Value}
    (h : lookupField fs k = some f) (hj : literalStore f.kind j = some v)
    (st : α × Option UnmarshalTypeError) :
    unmarshalMember fs st (k, j) = (f.set (some v) st.1, st.2) := by
  have hn : j ≠ JSON.null := by
    intro hn
    subst hn
    cases hk : f.kind <;> rw [hk] at hj <;> simp [literalStore] at hj
  cases j <;> first | exact absurd rfl hn | simp only [unmarshalMember, h, hj]

theorem unmarshalMember_misfit {k : String} {f : FieldInfo α} {j : JSON}
    (h : lookupField fs k = some f) (hn : j ≠ JSON.null) (hj : literalStore f.kind j = none)
    (st : α × Option UnmarshalTypeError) :
    (unmarshalMember fs st (k, j)).2 ≠ none := by
  cases j <;> first
    | exact absurd rfl hn
    | (simp only [unmarshalMember, h, hj]
       cases st.2 <;> simp)

theorem mem_marshalFields {r : α} {k : String} {j : JSON} :
    (k, j) ∈ marshalFields fs r ↔ ∃ f ∈ fs, emit r f = some (k, j) := by
  simp [marshalFields, List.mem_filterMap]

/-- The members of an encoded struct, field by field: a non-nil pointer contributes its
key with the pointee's encoding and nothing else; a nil pointer contributes nothing
under `omitempty` and its key with `null` otherwise. -/
theorem marshalFields_member (hl : Lawful fs) (r : α) {f : FieldInfo α} (hf : f ∈ fs)
    (j : JSON) :
    (f.key, j) ∈ marshalFields fs r ↔
      (∃ v, f.get r = some v ∧ j = v.toJSON) ∨
        (f.get r = none ∧ f.omitempty = false ∧ j = JSON.null) := by
  rw [mem_marshalFields]
  constructor
  · rintro ⟨g, hg, he⟩
    unfold emit at he
    cases hv : g.get r with
    | some v =>
      rw [hv] at he
      simp only [Option.some.injEq, Prod.mk.injEq] at he
      have hfg : g = f := hl.eq_of_key hg hf he.1
      subst hfg
      exact Or.inl ⟨v, hv, he.2.symm⟩
    | none =>
      rw [hv] at he
      cases ho : g.omitempty with
      | true => simp [ho] at he
      | false =>
        simp only [ho, Bool.false_eq_true, if_false, Option.some.injEq, Prod.mk.injEq] at he
        have hfg : g = f := hl.eq_of_key hg hf he.1
        subst hfg
        exact Or.inr ⟨hv, ho, he.2.symm⟩
  · rintro (⟨v, hv, rfl⟩ | ⟨hv, ho, rfl⟩)
    · exact ⟨f, hf, by simp [emit, hv]⟩
    · exact ⟨f, hf, by simp [emit, hv, ho]⟩

/-- Every member of an encoded struct carries the key of one of its fields. -/
theorem marshalFields_key {r : α} {k : String} {j : JSON} (h : (k, j) ∈ marshalFields fs r) :
    ∃ f ∈ fs, f.key = k := by
  rw [mem_marshalFields] at h
  obtain ⟨f, hf, he⟩ := h
  refine ⟨f, hf, ?_⟩
  unfold emit at he
  cases hv : f.get r with
  | some v =>
    rw [hv] at he
    simp only [Option.some.injEq, Prod.mk.injEq] at he
    exact he.1
  | none =>
    rw [hv] at he
    cases ho : f.omitempty with
    | true => simp [ho] at he
    | false =>
      simp only [ho, Bool.false_eq_true, if_false, Option.some.injEq, Prod.mk.injEq] at he
      exact he.1

theorem roundtrip_aux (hl : Lawful fs) (r : α)
    (hvalid : ∀ f ∈ fs, ∀ v, f.get r = some v → v.valid = true) :
    ∀ l : List (FieldInfo α), (∀ f ∈ l, f ∈ fs) → (l.map FieldInfo.key).Nodup →
      ∀ (s : α) (e : Option UnmarshalTypeError), (∀ f ∈ l, f.get r = none → f.get s = none) →
        ((l.filterMap (emit r)).foldl (unmarshalMember fs) (s, e)).2 = e ∧
        (∀ f ∈ l, f.get ((l.filterMap (emit r)).foldl (unmarshalMember fs) (s, e)).1
            = f.get r) ∧
        (∀ g ∈ fs, (∀ f ∈ l, f.key ≠ g.key) →
          g.get ((l.filterMap (emit r)).foldl (unmarshalMember fs) (s, e)).1 = g.get s) := by
  intro l
  induction l with
  | nil =>
    intro _ _ s e _
    simp
  | cons f l ih =>
    intro hsub hnd s e hpre
    have hf : f ∈ fs := hsub f (List.mem_cons_self _ _)
    have hsub' : ∀ g ∈ l, g ∈ fs := fun g hg => hsub g (List.mem_cons_of_mem _ hg)
    rw [List.map_cons, List.nodup_cons] at hnd
    have hne : ∀ g ∈ l, f.key ≠ g.key := by
      intro g hg h
      exact hnd.1 (h ▸ List.mem_map_of_mem FieldInfo.key hg)
    -- the state after the member of `f`, if any, has been decoded
    have key : ∃ s1 : α, ((f :: l).filterMap (emit r)).foldl (unmarshalMember fs) (s, e)
          = (l.filterMap (emit r)).foldl (unmarshalMember fs) (s1, e) ∧
        f.get s1 = f.get r ∧ ∀ g ∈ fs, f.key ≠ g.key → g.get s1 = g.get s := by
      cases hv : f.get r with
      | some v =>
        refine ⟨f.set (some v) s, ?_, ?_, ?_⟩
        · have hk : literalStore f.kind v.toJSON = some v := by
            rw [← hl.get_kind f hf r v hv]
            exact literalStore_toJSON v (hvalid f hf v hv)
          simp only [List.filterMap_cons, emit, hv, List.foldl_cons,
            unmarshalMember_store (lookupField_self hl hf) hk]
        · exact hl.get_set f hf s (some v) (fun x hx => by
            simp only [Option.some.injEq] at hx
            subst hx
            exact hl.get_kind f hf r _ hv)
        · intro g hg hfg
          exact hl.get_set_ne f hf g hg hfg s _
      | none =>
        cases ho : f.omitempty with
        | true =>
          refine ⟨s, ?_, hpre f (List.mem_cons_self _ _) hv, fun _ _ _ => rfl⟩
          simp only [List.filterMap_cons, emit, hv, ho, if_true]
        | false =>
          refine ⟨f.set none s, ?_, ?_, ?_⟩
          · simp only [List.filterMap_cons, emit, hv, ho, Bool.false_eq_true, if_false,
              List.foldl_cons, unmarshalMember_null (lookupField_self hl hf)]
          · exact hl.get_set f hf s none (fun x hx => by simp at hx)
          · intro g hg hfg
            exact hl.get_set_ne f hf g hg hfg s _
    obtain ⟨s1, hs1, hget, hframe⟩ := key
    rw [hs1]
    have hpre' : ∀ g ∈ l, g.get r = none → g.get s1 = none := by
      intro g hg hgr
      rw [hframe g (hsub' g hg) (hne g hg)]
      exact hpre g (List.mem_cons_of_mem _ hg) hgr
    obtain ⟨h1, h2, h3⟩ := ih hsub' hnd.2 s1 e hpre'
    refine ⟨h1, ?_, ?_⟩
    · intro g hg
      rcases List.mem_cons.1 hg with rfl | hg
      · rw [h3 g hf (fun f' hf' h => hne f' hf' h.symm)]
        exact hget
      · exact h2 g hg
    · intro g hg hall
      rw [h3 g hg (fun f' hf' => hall f' (List.mem_cons_of_mem _ hf'))]
      exact hframe g hg (hall f (List.mem_cons_self _ _))

/-- Decoding the encoding of a struct whose strings are valid UTF-8 into a struct with
every pointer nil gives the struct back, without error. -/
theorem unmarshalFields_marshalFields (hl : Lawful fs) (z : α)
    (hz : ∀ f ∈ fs, f.get z = none) (r : α)
    (hvalid : ∀ f ∈ fs, ∀ v, f.get r = some v → v.valid = true) :
    unmarshalFields fs (marshalFields fs r) z = (r, none) := by
  obtain ⟨h1, h2, _⟩ := roundtrip_aux hl r hvalid fs (fun _ h => h) hl.nodup z none
    (fun f hf _ => hz f hf)
  unfold unmarshalFields marshalFields
  exact Prod.ext (hl.ext _ _ h2) h1

theorem literalStore_null (k : Kind) : literalStore k JSON.null = none := by
  cases k <;> rfl

theorem unmarshalMember_sticky (st : α × Option UnmarshalTypeError) (kv : String × JSON)
    (h : (unmarshalMember fs st kv).2 = none) : st.2 = none := by
  obtain ⟨k, j⟩ := kv
  cases hk : lookupField fs k with
  | none =>
    rw [unmarshalMember_skip hk] at h
    exact h
  | some f =>
    by_cases hn : j = JSON.null
    · subst hn
      rw [unmarshalMember_null hk] at h
      exact h
    · cases hj : literalStore f.kind j with
      | some v =>
        rw [unmarshalMember_store hk hj] at h
        exact h
      | none => exact absurd h (unmarshalMember_misfit hk hn hj st)

theorem lastMember_append_of_resolves (f : FieldInfo α) (o : Object) (k : String) (j : JSON)
    (h : resolves fs f k = true) : lastMember fs f (o ++ [(k, j)]) = some j := by
  simp [lastMember, List.filter_append, List.filter_cons, h]

theorem lastMember_append_of_not_resolves (f : FieldInfo α) (o : Object) (k : String)
    (j : JSON) (h : resolves fs f k = false) :
    lastMember fs f (o ++ [(k, j)]) = lastMember fs f o := by
  simp [lastMember, List.filter_append, List.filter_cons, h]

theorem resolves_of_lookup (hl : Lawful fs) {f g : FieldInfo α} (hf : f ∈ fs) {k : String}
    (hk : lookupField fs k = some g) : resolves fs f k = true ↔ g = f := by
  simp only [resolves, hk, beq_iff_eq]
  exact ⟨fun h => hl.eq_of_key (lookupField_mem hk) hf h, fun h => by rw [h]⟩

/-- After a decode without error, a field holds what the object's last member for it
says: nothing when there is no such member or when it is `null`, its value otherwise. -/
theorem unmarshalFields_get (hl : Lawful fs) (z : α) (hz : ∀ f ∈ fs, f.get z = none) :
    ∀ o : Object, (unmarshalFields fs o z).2 = none →
      ∀ f ∈ fs, f.get (unmarshalFields fs o z).1
        = (lastMember fs f o).bind (literalStore f.kind) := by
  intro o
  induction o using List.reverseRecOn with
  | nil =>
    intro _ f hf
    simp [unmarshalFields, lastMember, hz f hf]
  | append_singleton o kv ih =>
    intro hok f hf
    obtain ⟨k, j⟩ := kv
    have hstep : unmarshalFields fs (o ++ [(k, j)]) z
        = unmarshalMember fs (unmarshalFields fs o z) (k, j) := by
      simp [unmarshalFields, List.foldl_append]
    rw [hstep] at hok ⊢
    have ih' := ih (unmarshalMember_sticky _ _ hok) f hf
    cases hk : lookupField fs k with
    | none =>
      rw [unmarshalMember_skip hk, ih',
        lastMember_append_of_not_resolves f o k j (by simp [resolves, hk])]
    | some g =>
      have hg : g ∈ fs := lookupField_mem hk
      by_cases hgf : g = f
      · subst hgf
        rw [lastMember_append_of_resolves g o k j ((resolves_of_lookup hl hg hk).2 rfl)]
        by_cases hn : j = JSON.null
        · subst hn
          rw [unmarshalMember_null hk]
          simp only [Option.some_bind, literalStore_null]
          exact hl.get_set g hg _ none (fun x hx => by simp at hx)
        · cases hj : literalStore g.kind j with
          | some v =>
            rw [unmarshalMember_store hk hj]
            simp only [Option.some_bind, hj]
            exact hl.get_set g hg _ (some v) (fun x hx => by
              simp only [Option.some.injEq] at hx
              subst hx
              exact literalStore_kind hj)
          | none => exact absurd hok (unmarshalMember_misfit hk hn hj _)
      · have hres : resolves fs f k = false := by
          cases hr : resolves fs f k with
          | false => rfl
          | true => exact absurd ((resolves_of_lookup hl hf hk).1 hr) hgf
        have hkey : g.key ≠ f.key := fun h => hgf (hl.eq_of_key hg hf h)
        rw [lastMember_append_of_not_resolves f o k j hres, ← ih']
        by_cases hn : j = JSON.null
        · subst hn
          rw [unmarshalMember_null hk]
          exact hl.get_set_ne g hg f hf hkey _ _
        · cases hj : literalStore g.kind j with
          | some v =>
            rw [unmarshalMember_store hk hj]
            exact hl.get_set_ne g hg f hf hkey _ _
          | none => exact absurd hok (unmarshalMember_misfit hk hn hj _)

/-- Two structs that agree on every field but `f` compare equal exactly when `f` is nil
in both or non-nil in both with equal pointees. -/
theorem deepEqualFields_iff (hl : Lawful fs) (a b : α) {f : FieldInfo α} (hf : f ∈ fs)
    (hrest : ∀ g ∈ fs, g.key ≠ f.key → g.get a = g.get b) :
    deepEqualFields fs a b = true ↔
      (f.get a = none ∧ f.get b = none) ∨ ∃ v, f.get a = some v ∧ f.get b = some v := by
  have hcore : deepEqualFields fs a b = true ↔ f.get a = f.get b := by
    simp only [deepEqualFields, List.all_eq_true, beq_iff_eq]
    constructor
    · intro h
      exact h f hf
    · intro h g hg
      by_cases hk : g.key = f.key
      · rw [hl.eq_of_key hg hf hk]
        exact h
      · exact hrest g hg hk
  rw [hcore]
  cases ha : f.get a <;> cases hb : f.get b <;> simp [eq_comm]

/-- On a well-formed table the comparison is equality of structs. -/
theorem deepEqualFields_eq (hl : Lawful fs) (a b : α) :
    deepEqualFields fs a b = true ↔ a = b := by
  simp only [deepEqualFields, List.all_eq_true, beq_iff_eq]
  exact ⟨fun h => hl.ext a b h, fun h _ _ => by rw [h]⟩

end Codec

/-! ## Paths -/

theorem formatBits_digits : ∀ (fuel u : Nat) (acc : List Char), 0 < u → u < fuel →
    formatBits fuel u acc = (Nat.digits 10 u).reverse.map digitChar ++ acc := by
  intro fuel
  induction fuel with
  | zero =>
    intro u acc _ h
    exact absurd h (Nat.not_lt_zero _)
  | succ fuel ih =>
    intro u acc hpos hlt
    unfold formatBits
    by_cases h10 : u < 10
    · rw [if_pos h10, Nat.digits_of_lt 10 u (Nat.pos_iff_ne_zero.1 hpos) h10]
      rfl
    · rw [if_neg h10]
      have hdiv : 0 < u / 10 := Nat.div_pos (Nat.le_of_not_lt h10) (by decide)
      have hlt' : u / 10 < fuel := by omega
      rw [ih (u / 10) _ hdiv hlt', Nat.digits_def' (by decide) hpos]
      simp

theorem formatBits_zero (fuel : Nat) (acc : List Char) :
    formatBits (fuel + 1) 0 acc = '0' :: acc := by
  unfold formatBits
  rfl

/-- The verb `%v` writes an integer in base 10. -/
theorem formatInt_eq_decimal (t : Int) : formatInt t = (decimal t).data := by
  unfold formatInt decimal
  by_cases h0 : t = 0
  · subst h0
    rfl
  · have hpos : 0 < t.natAbs := Int.natAbs_pos.2 h0
    rw [formatBits_digits _ _ _ hpos (Nat.lt_succ_self _)]
    by_cases hneg : t < 0
    · simp [hneg, h0]
    · simp [hneg, h0]

theorem Sprintf_users (user : GoString) :
    Sprintf "admin/ldap/users/%v/mapping" [Arg.string user]
      = utf8 "admin/ldap/users/" ++ user ++ utf8 "/mapping" := by
  rfl

theorem Sprintf_teams (team : GoInt) :
    Sprintf "admin/ldap/teams/%v/mapping" [Arg.int team]
      = utf8 "admin/ldap/teams/" ++ utf8 (decimal team.val) ++ utf8 "/mapping" := by
  have h : Sprintf "admin/ldap/teams/%v/mapping" [Arg.int team]
      = utf8 "admin/ldap/teams/" ++ utf8Encode (formatInt team.val) ++ utf8 "/mapping" := by
    rfl
  rw [h, formatInt_eq_decimal]
  rfl

theorem Sprintf_rename (oldLogin : GoString) :
    Sprintf "admin/users/%s" [Arg.string oldLogin] = utf8 "admin/users/" ++ oldLogin := by
  have h : Sprintf "admin/users/%s" [Arg.string oldLogin]
      = utf8 "admin/users/" ++ (oldLogin ++ []) := by
    rfl
  rw [h, List.append_nil]

/-! ## The operations, step by step -/

section Steps

variable {σ Ctx Req Resp Err : Type} (c : Client σ Ctx Req Resp Err) (ctx : Ctx)

theorem recording_NewRequest (method : String) (urlStr : GoString) (body : Body) (st : σ)
    (j : List (Event Ctx Req)) :
    (recording c).NewRequest method urlStr body (st, j)
      = ((c.NewRequest method urlStr body st).1,
          ((c.NewRequest method urlStr body st).2,
            j ++ [Event.newRequest method urlStr body])) :=
  rfl

theorem recording_Do {α : Type} [Record α] (req : Req) (v : α) (st : σ)
    (j : List (Event Ctx Req)) :
    (recording c).Do ctx req v (st, j)
      = ((c.Do ctx req v st).1,
          ((c.Do ctx req v st).2, j ++ [Event.exchange ctx req (marshal v)])) :=
  rfl

theorem UpdateUserLDAPMapping_error (user : GoString)
    (mapping : Option UserLDAPMapping) (st st1 : σ) (e : Err)
    (h1 : c.NewRequest "PATCH" (utf8 "admin/ldap/users/" ++ user ++ utf8 "/mapping")
      (Body.userLDAPMapping mapping) st = (Except.error e, st1)) :
    (AdminService.mk c).UpdateUserLDAPMapping ctx user mapping st
      = ((none, none, some e), st1) := by
  simp only [AdminService.UpdateUserLDAPMapping, Sprintf_users, h1]

theorem UpdateUserLDAPMapping_fail (user : GoString)
    (mapping : Option UserLDAPMapping) (st st1 st2 : σ) (req : Req)
    (resp : Option Resp) (e : Err) (m : UserLDAPMapping)
    (h1 : c.NewRequest "PATCH" (utf8 "admin/ldap/users/" ++ user ++ utf8 "/mapping")
      (Body.userLDAPMapping mapping) st = (Except.ok req, st1))
    (h2 : c.Do ctx req UserLDAPMapping.zero st1 = ((resp, some e, m), st2)) :
    (AdminService.mk c).UpdateUserLDAPMapping ctx user mapping st
      = ((none, resp, some e), st2) := by
  simp only [AdminService.UpdateUserLDAPMapping, Sprintf_users, h1, h2]

theorem UpdateUserLDAPMapping_ok (user : GoString)
    (mapping : Option UserLDAPMapping) (st st1 st2 : σ) (req : Req)
    (resp : Option Resp) (m : UserLDAPMapping)
    (h1 : c.NewRequest "PATCH" (utf8 "admin/ldap/users/" ++ user ++ utf8 "/mapping")
      (Body.userLDAPMapping mapping) st = (Except.ok req, st1))
    (h2 : c.Do ctx req UserLDAPMapping.zero st1 = ((resp, none, m), st2)) :
    (AdminService.mk c).UpdateUserLDAPMapping ctx user mapping st
      = ((some m, resp, none), st2) := by
  simp only [AdminService.UpdateUserLDAPMapping, Sprintf_users, h1, h2]

theorem UpdateUserLDAPMapping_journal_error (user : GoString)
    (mapping : Option UserLDAPMapping) (st : σ)
    (j : List (Event Ctx Req)) (e : Err)
    (h1 : (c.NewRequest "PATCH" (utf8 "admin/ldap/users/" ++ user ++ utf8 "/mapping")
      (Body.userLDAPMapping mapping) st).1 = Except.error e) :
    ((AdminService.mk (recording c)).UpdateUserLDAPMapping ctx user mapping (st, j)).2.2
      = j ++ [Event.newRequest "PATCH" (utf8 "admin/ldap/users/" ++ user ++ utf8 "/mapping")
          (Body.userLDAPMapping mapping)] := by
  simp only [AdminService.UpdateUserLDAPMapping, Sprintf_users, recording_NewRequest, h1]

theorem UpdateUserLDAPMapping_journal_ok (user : GoString)
    (mapping : Option UserLDAPMapping) (st : σ)
    (j : List (Event Ctx Req)) (req : Req)
    (h1 : (c.NewRequest "PATCH" (utf8 "admin/ldap/users/" ++ user ++ utf8 "/mapping")
      (Body.userLDAPMapping mapping) st).1 = Except.ok req) :
    ((AdminService.mk (recording c)).UpdateUserLDAPMapping ctx user mapping (st, j)).2.2
      = j ++ [Event.newRequest "PATCH" (utf8 "admin/ldap/users/" ++ user ++ utf8 "/mapping")
          (Body.userLDAPMapping mapping),
          Event.exchange ctx req (marshal UserLDAPMapping.zero)] := by
  simp only [AdminService.UpdateUserLDAPMapping, Sprintf_users, recording_NewRequest, h1,
    recording_Do]
  rcases c.Do ctx req UserLDAPMapping.zero
    (c.NewRequest "PATCH" (utf8 "admin/ldap/users/" ++ user ++ utf8 "/mapping")
      (Body.userLDAPMapping mapping) st).2 with ⟨⟨resp, err, m⟩, st2⟩
  cases err <;> simp

theorem UpdateTeamLDAPMapping_error (team : GoInt)
    (mapping : Option TeamLDAPMapping) (st st1 : σ) (e : Err)
    (h1 : c.NewRequest "PATCH" (utf8 "admin/ldap/teams/" ++ utf8 (decimal team.val) ++ utf8 "/mapping")
      (Body.teamLDAPMapping mapping) st = (Except.error e, st1)) :
    (AdminService.mk c).UpdateTeamLDAPMapping ctx team mapping st
      = ((none, none, some e), st1) := by
  simp only [AdminService.UpdateTeamLDAPMapping, Sprintf_teams, h1]

theorem UpdateTeamLDAPMapping_fail (team : GoInt)
    (mapping : Option TeamLDAPMapping) (st st1 st2 : σ) (req : Req)
    (resp : Option Resp) (e : Err) (m : TeamLDAPMapping)
    (h1 : c.NewRequest "PATCH" (utf8 "admin/ldap/teams/" ++ utf8 (decimal team.val) ++ utf8 "/mapping")
      (Body.teamLDAPMapping mapping) st = (Except.ok req, st1))
    (h2 : c.Do ctx req TeamLDAPMapping.zero st1 = ((resp, some e, m), st2)) :
    (AdminService.mk c).UpdateTeamLDAPMapping ctx team mapping st
      = ((none, resp, some e), st2) := by
  simp only [AdminService.UpdateTeamLDAPMapping, Sprintf_teams, h1, h2]

theorem UpdateTeamLDAPMapping_ok (team : GoInt)
    (mapping : Option TeamLDAPMapping) (st st1 st2 : σ) (req : Req)
    (resp : Option Resp) (m : TeamLDAPMapping)
    (h1 : c.NewRequest "PATCH" (utf8 "admin/ldap/teams/" ++ utf8 (decimal team.val) ++ utf8 "/mapping")
      (Body.teamLDAPMapping mapping) st = (Except.ok req, st1))
    (h2 : c.Do ctx req TeamLDAPMapping.zero st1 = ((resp, none, m), st2)) :
    (AdminService.mk c).UpdateTeamLDAPMapping ctx team mapping st
      = ((some m, resp, none), st2) := by
  simp only [AdminService.UpdateTeamLDAPMapping, Sprintf_teams, h1, h2]

theorem UpdateTeamLDAPMapping_journal_error (team : GoInt)
    (mapping : Option TeamLDAPMapping) (st : σ)
    (j : List (Event Ctx Req)) (e : Err)
    (h1 : (c.NewRequest "PATCH" (utf8 "admin/ldap/teams/" ++ utf8 (decimal team.val) ++ utf8 "/mapping")
      (Body.teamLDAPMapping mapping) st).1 = Except.error e) :
    ((AdminService.mk (recording c)).UpdateTeamLDAPMapping ctx team mapping (st, j)).2.2
      = j ++ [Event.newRequest "PATCH" (utf8 "admin/ldap/teams/" ++ utf8 (decimal team.val) ++ utf8 "/mapping")
          (Body.teamLDAPMapping mapping)] := by
  simp only [AdminService.UpdateTeamLDAPMapping, Sprintf_teams, recording_NewRequest, h1]

theorem UpdateTeamLDAPMapping_journal_ok (team : GoInt)
    (mapping : Option TeamLDAPMapping) (st : σ)
    (j : List (Event Ctx Req)) (req : Req)
    (h1 : (c.NewRequest "PATCH" (utf8 "admin/ldap/teams/" ++ utf8 (decimal team.val) ++ utf8 "/mapping")
      (Body.teamLDAPMapping mapping) st).1 = Except.ok req) :
    ((AdminService.mk (recording c)).UpdateTeamLDAPMapping ctx team mapping (st, j)).2.2
      = j ++ [Event.newRequest "PATCH" (utf8 "admin/ldap/teams/" ++ utf8 (decimal team.val) ++ utf8 "/mapping")
          (Body.teamLDAPMapping mapping),
          Event.exchange ctx req (marshal TeamLDAPMapping.zero)] := by
  simp only [AdminService.UpdateTeamLDAPMapping, Sprintf_teams, recording_NewRequest, h1,
    recording_Do]
  rcases c.Do ctx req TeamLDAPMapping.zero
    (c.NewRequest "PATCH" (utf8 "admin/ldap/teams/" ++ utf8 (decimal team.val) ++ utf8 "/mapping")
      (Body.teamLDAPMapping mapping) st).2 with ⟨⟨resp, err, m⟩, st2⟩
  cases err <;> simp

theorem CreateUser_error (user : Option User) (st st1 : σ) (e : Err)
    (h1 : c.NewRequest "POST" (utf8 "admin/users")
      (Body.user user) st = (Except.error e, st1)) :
    (AdminService.mk c).CreateUser ctx user st
      = ((none, none, some e), st1) := by
  simp only [AdminService.CreateUser, h1]

theorem CreateUser_fail (user : Option User) (st st1 st2 : σ) (req : Req)
    (resp : Option Resp) (e : Err) (m : User)
    (h1 : c.NewRequest "POST" (utf8 "admin/users")
      (Body.user user) st = (Except.ok req, st1))
    (h2 : c.Do ctx req User.zero st1 = ((resp, some e, m), st2)) :
    (AdminService.mk c).CreateUser ctx user st
      = ((none, resp, some e), st2) := by
  simp only [AdminService.CreateUser, h1, h2]

theorem CreateUser_ok (user : Option User) (st st1 st2 : σ) (req : Req)
    (resp : Option Resp) (m : User)
    (h1 : c.NewRequest "POST" (utf8 "admin/users")
      (Body.user user) st = (Except.ok req, st1))
    (h2 : c.Do ctx req User.zero st1 = ((resp, none, m), st2)) :
    (AdminService.mk c).CreateUser ctx user st
      = ((some m, resp, none), st2) := by
  simp only [AdminService.CreateUser, h1, h2]

theorem CreateUser_journal_error (user : Option User) (st : σ)
    (j : List (Event Ctx Req)) (e : Err)
    (h1 : (c.NewRequest "POST" (utf8 "admin/users")
      (Body.user user) st).1 = Except.error e) :
    ((AdminService.mk (recording c)).CreateUser ctx user (st, j)).2.2
      = j ++ [Event.newRequest "POST" (utf8 "admin/users")
          (Body.user user)] := by
  simp only [AdminService.CreateUser, recording_NewRequest, h1]

theorem CreateUser_journal_ok (user : Option User) (st : σ)
    (j : List (Event Ctx Req)) (req : Req)
    (h1 : (c.NewRequest "POST" (utf8 "admin/users")
      (Body.user user) st).1 = Except.ok req) :
    ((AdminService.mk (recording c)).CreateUser ctx user (st, j)).2.2
      = j ++ [Event.newRequest "POST" (utf8 "admin/users")
          (Body.user user),
          Event.exchange ctx req (marshal User.zero)] := by
  simp only [AdminService.CreateUser, recording_NewRequest, h1,
    recording_Do]
  rcases c.Do ctx req User.zero
    (c.NewRequest "POST" (utf8 "admin/users")
      (Body.user user) st).2 with ⟨⟨resp, err, m⟩, st2⟩
  cases err <;> simp

theorem RenameUser_error (oldLogin newLogin : GoString) (st st1 : σ) (e : Err)
    (h1 : c.NewRequest "PATCH" (utf8 "admin/users/" ++ oldLogin)
      (Body.user (some { User.zero with Login := some newLogin })) st = (Except.error e, st1)) :
    (AdminService.mk c).RenameUser ctx oldLogin newLogin st
      = ((none, none, some e), st1) := by
  simp only [AdminService.RenameUser, Sprintf_rename, h1]

theorem RenameUser_fail (oldLogin newLogin : GoString) (st st1 st2 : σ) (req : Req)
    (resp : Option Resp) (e : Err) (m : AdminMessage)
    (h1 : c.NewRequest "PATCH" (utf8 "admin/users/" ++ oldLogin)
      (Body.user (some { User.zero with Login := some newLogin })) st = (Except.ok req, st1))
    (h2 : c.Do ctx req AdminMessage.zero st1 = ((resp, some e, m), st2)) :
    (AdminService.mk c).RenameUser ctx oldLogin newLogin st
      = ((none, resp, some e), st2) := by
  simp only [AdminService.RenameUser, Sprintf_rename, h1, h2]

theorem RenameUser_ok (oldLogin newLogin : GoString) (st st1 st2 : σ) (req : Req)
    (resp : Option Resp) (m : AdminMessage)
    (h1 : c.NewRequest "PATCH" (utf8 "admin/users/" ++ oldLogin)
      (Body.user (some { User.zero with Login := some newLogin })) st = (Except.ok req, st1))
    (h2 : c.Do ctx req AdminMessage.zero st1 = ((resp, none, m), st2)) :
    (AdminService.mk c).RenameUser ctx oldLogin newLogin st
      = ((some m, resp, none), st2) := by
  simp only [AdminService.RenameUser, Sprintf_rename, h1, h2]

theorem RenameUser_journal_error (oldLogin newLogin : GoString) (st : σ)
    (j : List (Event Ctx Req)) (e : Err)
    (h1 : (c.NewRequest "PATCH" (utf8 "admin/users/" ++ oldLogin)
      (Body.user (some { User.zero with Login := some newLogin })) st).1 = Except.error e) :
    ((AdminService.mk (recording c)).RenameUser ctx oldLogin newLogin (st, j)).2.2
      = j ++ [Event.newRequest "PATCH" (utf8 "admin/users/" ++ oldLogin)
          (Body.user (some { User.zero with Login := some newLogin }))] := by
  simp only [AdminService.RenameUser, Sprintf_rename, recording_NewRequest, h1]

theorem RenameUser_journal_ok (oldLogin newLogin : GoString) (st : σ)
    (j : List (Event Ctx Req)) (req : Req)
    (h1 : (c.NewRequest "PATCH" (utf8 "admin/users/" ++ oldLogin)
      (Body.user (some { User.zero with Login := some newLogin })) st).1 = Except.ok req) :
    ((AdminService.mk (recording c)).RenameUser ctx oldLogin newLogin (st, j)).2.2
      = j ++ [Event.newRequest "PATCH" (utf8 "admin/users/" ++ oldLogin)
          (Body.user (some { User.zero with Login := some newLogin })),
          Event.exchange ctx req (marshal AdminMessage.zero)] := by
  simp only [AdminService.RenameUser, Sprintf_rename, recording_NewRequest, h1,
    recording_Do]
  rcases c.Do ctx req AdminMessage.zero
    (c.NewRequest "PATCH" (utf8 "admin/users/" ++ oldLogin)
      (Body.user (some { User.zero with Login := some newLogin })) st).2 with ⟨⟨resp, err, m⟩, st2⟩
  cases err <;> simp

end Steps

/-! ## Serialization of the records -/

theorem UserLDAPMapping_all_omitempty :
    ∀ f ∈ UserLDAPMapping.fields, f.omitempty = true := by
  decide

theorem TeamLDAPMapping_all_omitempty :
    ∀ f ∈ TeamLDAPMapping.fields, f.omitempty = true := by
  decide

theorem User_all_omitempty : ∀ f ∈ User.fields, f.omitempty = true := by
  decide

theorem AdminMessage_none_omitempty :
    ∀ f ∈ AdminMessage.fields, f.omitempty = false := by
  decide

theorem marshalFields_member_omitempty {α : Type} {fs : List (FieldInfo α)} (hl : Lawful fs)
    (ho : ∀ f ∈ fs, f.omitempty = true) (r : α) {f : FieldInfo α} (hf : f ∈ fs) (j : JSON) :
    (f.key, j) ∈ marshalFields fs r ↔ ∃ v, f.get r = some v ∧ j = v.toJSON := by
  rw [marshalFields_member hl r hf j]
  constructor
  · rintro (h | ⟨_, h, _⟩)
    · exact h
    · rw [ho f hf] at h
      exact absurd h (by simp)
  · exact Or.inl

/-- C1, as stated, fails on `AdminMessage`: its tags carry no `omitempty`, so the record
with `Message` and `URL` absent is encoded as an object holding both keys with `null`,
and the equivalence "a member for the key exists exactly when the field is present,
with the field's value" does not hold for this type. -/
theorem AdminMessage_marshal_absent_as_null :
    marshal AdminMessage.zero = [("message", JSON.null), ("url", JSON.null)] ∧
      ¬ ∀ (r : AdminMessage), ∀ f ∈ AdminMessage.fields, ∀ j : JSON,
          (f.key, j) ∈ marshal r ↔ ∃ v, f.get r = some v ∧ j = v.toJSON := by
  refine ⟨by decide, ?_⟩
  intro h
  have hmem : (AdminMessage.fields.get ⟨0, by decide⟩) ∈ AdminMessage.fields :=
    List.get_mem _ _ _
  obtain ⟨v, hv, _⟩ := (h AdminMessage.zero _ hmem JSON.null).1 (by decide)
  have hnone : (AdminMessage.fields.get ⟨0, by decide⟩).get AdminMessage.zero = none := rfl
  rw [hnone] at hv
  exact absurd hv (by simp)

/-- C1, amended: for `UserLDAPMapping` and `TeamLDAPMapping`, whose tags all carry
`omitempty`, the encoded object has a member for a field's key exactly when the field is
present, and the member's value is the encoding of the field's value, so an absent
field is never emitted, not even as `null`. For `AdminMessage`, whose tags carry no
`omitempty`, a present field is emitted with its value and an absent field is emitted
as `null`. In all three types every member of the encoded object carries the key of a
field of the record. -/
theorem marshal_member_iff :
    (∀ (r : UserLDAPMapping), ∀ f ∈ UserLDAPMapping.fields, ∀ j : JSON,
        (f.key, j) ∈ marshal r ↔ ∃ v, f.get r = some v ∧ j = v.toJSON) ∧
    (∀ (r : TeamLDAPMapping), ∀ f ∈ TeamLDAPMapping.fields, ∀ j : JSON,
        (f.key, j) ∈ marshal r ↔ ∃ v, f.get r = some v ∧ j = v.toJSON) ∧
    (∀ (r : AdminMessage), ∀ f ∈ AdminMessage.fields, ∀ j : JSON,
        (f.key, j) ∈ marshal r ↔
          (∃ v, f.get r = some v ∧ j = v.toJSON) ∨ (f.get r = none ∧ j = JSON.null)) ∧
    (∀ (r : UserLDAPMapping) (k : String) (j : JSON), (k, j) ∈ marshal r →
        ∃ f ∈ UserLDAPMapping.fields, f.key = k) ∧
    (∀ (r : TeamLDAPMapping) (k : String) (j : JSON), (k, j) ∈ marshal r →
        ∃ f ∈ TeamLDAPMapping.fields, f.key = k) ∧
    (∀ (r : AdminMessage) (k : String) (j : JSON), (k, j) ∈ marshal r →
        ∃ f ∈ AdminMessage.fields, f.key = k) := by
  refine ⟨?_, ?_, ?_, ?_, ?_, ?_⟩
  · intro r f hf j
    exact marshalFields_member_omitempty UserLDAPMapping_lawful
      UserLDAPMapping_all_omitempty r hf j
  · intro r f hf j
    exact marshalFields_member_omitempty TeamLDAPMapping_lawful
      TeamLDAPMapping_all_omitempty r hf j
  · intro r f hf j
    have h := marshalFields_member AdminMessage_lawful r hf j
    simp only [AdminMessage_none_omitempty f hf, true_and] at h
    exact h
  · intro r k j h
    exact marshalFields_key h
  · intro r k j h
    exact marshalFields_key h
  · intro r k j h
    exact marshalFields_key h

/-- C1, amended, on concrete records: a `UserLDAPMapping` with only `SiteAdmin` present,
and `false`, has the member `"site_admin": false`; a `TeamLDAPMapping` with only `ID`
present has no `null` member for `"ldap_dn"`; an `AdminMessage` with only `URL` present
has the member `"message": null`; and each has a key-bearing member. -/
theorem marshal_member_iff_witness :
    ("site_admin", JSON.bool false)
        ∈ marshal { UserLDAPMapping.zero with SiteAdmin := some false } ∧
    ¬ ("ldap_dn", JSON.null)
        ∈ marshal { TeamLDAPMapping.zero with ID := some ⟨7, by decide⟩ } ∧
    ("message", JSON.null) ∈ marshal { AdminMessage.zero with URL := some (utf8 "u") } ∧
    (∃ f ∈ UserLDAPMapping.fields, f.key = "site_admin") ∧
    (∃ f ∈ TeamLDAPMapping.fields, f.key = "id") ∧
    (∃ f ∈ AdminMessage.fields, f.key = "url") :=
  ⟨(marshal_member_iff.1 { UserLDAPMapping.zero with SiteAdmin := some false }
      (UserLDAPMapping.fields.get ⟨6, by decide⟩) (List.get_mem _ _ _)
      (JSON.bool false)).2 ⟨Value.bool false, rfl, rfl⟩,
    fun h => by
      obtain ⟨v, _, hv⟩ := (marshal_member_iff.2.1
        { TeamLDAPMapping.zero with ID := some ⟨7, by decide⟩ }
        (TeamLDAPMapping.fields.get ⟨1, by decide⟩) (List.get_mem _ _ _) JSON.null).1 h
      exact toJSON_ne_null v hv.symm,
    (marshal_member_iff.2.2.1 { AdminMessage.zero with URL := some (utf8 "u") }
      (AdminMessage.fields.get ⟨0, by decide⟩) (List.get_mem _ _ _)
      JSON.null).2 (Or.inr ⟨rfl, rfl⟩),
    marshal_member_iff.2.2.2.1 { UserLDAPMapping.zero with SiteAdmin := some false }
      "site_admin" (JSON.bool false) (by decide),
    marshal_member_iff.2.2.2.2.1 { TeamLDAPMapping.zero with ID := some ⟨7, by decide⟩ }
      "id" (JSON.number 7) (by decide),
    marshal_member_iff.2.2.2.2.2 { AdminMessage.zero with URL := some (utf8 "u") }
      "url" (JSON.string "u") (by decide)⟩

theorem validStrings_get {α : Type} [Record α] {r : α} (h : validStrings r = true)
    {f : FieldInfo α} (hf : f ∈ (Record.fields : List (FieldInfo α))) {v : Value}
    (hv : f.get r = some v) : v.valid = true := by
  simp only [validStrings, List.all_eq_true] at h
  have := h f hf
  rw [hv] at this
  exact this

/-- C2, as stated, fails on a string that is not valid UTF-8: a Go string is a sequence
of bytes, and the encoder replaces every invalid byte by U+FFFD. The `UserLDAPMapping`
whose `LDAPDN` is the single byte `0xFF` is encoded as `{"ldap_dn": "\ufffd"}`, which
decodes to an `LDAPDN` of the three bytes `EF BF BD`: a record that is not equal to the
one serialized. -/
theorem unmarshal_marshal_invalid_utf8 :
    marshal { UserLDAPMapping.zero with LDAPDN := some [byte 0xFF] }
      = [("ldap_dn", JSON.string (String.mk [Char.ofNat 0xFFFD]))] ∧
    unmarshal (marshal { UserLDAPMapping.zero with LDAPDN := some [byte 0xFF] })
        UserLDAPMapping.zero
      = ({ UserLDAPMapping.zero with LDAPDN := some [byte 0xEF, byte 0xBF, byte 0xBD] },
          none) ∧
    deepEqual
        (unmarshal (marshal { UserLDAPMapping.zero with LDAPDN := some [byte 0xFF] })
          UserLDAPMapping.zero).1
        { UserLDAPMapping.zero with LDAPDN := some [byte 0xFF] } = false ∧
    ¬ ∀ r : UserLDAPMapping, unmarshal (marshal r) UserLDAPMapping.zero = (r, none) := by
  refine ⟨by decide, by decide, by decide, ?_⟩
  intro h
  have h1 := h { UserLDAPMapping.zero with LDAPDN := some [byte 0xFF] }
  revert h1
  decide

/-- C2, amended: decoding undoes serializing on records whose strings are valid UTF-8.
For every `UserLDAPMapping`, `TeamLDAPMapping` and `AdminMessage`, whatever fields are
present and whatever their values (the empty string, `0` and `false` included), provided
every string present is valid UTF-8, decoding the encoded record into a fresh record
with every field absent gives the record back, without error; the result also compares
equal to the record under `DeepEqual`. -/
theorem unmarshal_marshal_of_valid :
    (∀ r : UserLDAPMapping, validStrings r = true →
        unmarshal (marshal r) UserLDAPMapping.zero = (r, none) ∧
        deepEqual (unmarshal (marshal r) UserLDAPMapping.zero).1 r = true) ∧
    (∀ r : TeamLDAPMapping, validStrings r = true →
        unmarshal (marshal r) TeamLDAPMapping.zero = (r, none) ∧
        deepEqual (unmarshal (marshal r) TeamLDAPMapping.zero).1 r = true) ∧
    (∀ r : AdminMessage, validStrings r = true →
        unmarshal (marshal r) AdminMessage.zero = (r, none) ∧
        deepEqual (unmarshal (marshal r) AdminMessage.zero).1 r = true) := by
  refine ⟨?_, ?_, ?_⟩
  · intro r hr
    have h : unmarshal (marshal r) UserLDAPMapping.zero = (r, none) :=
      unmarshalFields_marshalFields UserLDAPMapping_lawful _ (by decide) r
        (fun f hf v hv => validStrings_get hr hf hv)
    exact ⟨h, by rw [h]; exact (deepEqualFields_eq UserLDAPMapping_lawful r r).2 rfl⟩
  · intro r hr
    have h : unmarshal (marshal r) TeamLDAPMapping.zero = (r, none) :=
      unmarshalFields_marshalFields TeamLDAPMapping_lawful _ (by decide) r
        (fun f hf v hv => validStrings_get hr hf hv)
    exact ⟨h, by rw [h]; exact (deepEqualFields_eq TeamLDAPMapping_lawful r r).2 rfl⟩
  · intro r hr
    have h : unmarshal (marshal r) AdminMessage.zero = (r, none) :=
      unmarshalFields_marshalFields AdminMessage_lawful _ (by decide) r
        (fun f hf v hv => validStrings_get hr hf hv)
    exact ⟨h, by rw [h]; exact (deepEqualFields_eq AdminMessage_lawful r r).2 rfl⟩

/-- C2, amended, on concrete records: a `UserLDAPMapping` holding the empty string, `0`,
`false` and a distinguished name with letters outside ASCII; a `TeamLDAPMapping` with a
name; an `AdminMessage` with only `URL` present. -/
theorem unmarshal_marshal_of_valid_witness :
    unmarshal
        (marshal { UserLDAPMapping.zero with
          ID := some ⟨0, by decide⟩, LDAPDN := some (utf8 "cn=Zoë,ou=users"),
          Login := some (utf8 ""), SiteAdmin := some false })
        UserLDAPMapping.zero
      = ({ UserLDAPMapping.zero with
          ID := some ⟨0, by decide⟩, LDAPDN := some (utf8 "cn=Zoë,ou=users"),
          Login := some (utf8 ""), SiteAdmin := some false }, none) ∧
    unmarshal (marshal { TeamLDAPMapping.zero with Name := some (utf8 "ops") })
        TeamLDAPMapping.zero
      = ({ TeamLDAPMapping.zero with Name := some (utf8 "ops") }, none) ∧
    unmarshal (marshal { AdminMessage.zero with URL := some (utf8 "u") }) AdminMessage.zero
      = ({ AdminMessage.zero with URL := some (utf8 "u") }, none) :=
  ⟨(unmarshal_marshal_of_valid.1 _ (by decide)).1,
    (unmarshal_marshal_of_valid.2.1 _ (by decide)).1,
    (unmarshal_marshal_of_valid.2.2 _ (by decide)).1⟩

/-! ## Equality of records -/

theorem deepEqualFields_get {α : Type} {fs : List (FieldInfo α)} {a b : α}
    (h : deepEqualFields fs a b = true) {f : FieldInfo α} (hf : f ∈ fs) :
    f.get a = f.get b := by
  simp only [deepEqualFields, List.all_eq_true, beq_iff_eq] at h
  exact h f hf

theorem deepEqualFields_absent_present {α : Type} {fs : List (FieldInfo α)} {a b : α}
    {f : FieldInfo α} (hf : f ∈ fs) {v : Value} (ha : f.get a = none)
    (hb : f.get b = some v) : deepEqualFields fs a b = false := by
  cases h : deepEqualFields fs a b with
  | false => rfl
  | true =>
    have := deepEqualFields_get h hf
    rw [ha, hb] at this
    exact absurd this (by simp)

/-- C3: record equality distinguishes absent from present-with-zero-value. For each
record type (`UserLDAPMapping`, `TeamLDAPMapping`, `AdminMessage`, and the `User` of the
payloads) and each of its fields `f`: two records that agree on all other fields compare
equal exactly when `f` is absent in both or present in both with equal values; and a
record with `f` absent never compares equal to one with `f` present, whatever the value,
the zero value included. In particular a `UserLDAPMapping` with `SiteAdmin` absent is
not equal to the same record with `SiteAdmin` present and `false`. -/
theorem deepEqual_field :
    (∀ (a b : UserLDAPMapping), ∀ f ∈ UserLDAPMapping.fields,
        (∀ g ∈ UserLDAPMapping.fields, g.key ≠ f.key → g.get a = g.get b) →
        (deepEqual a b = true ↔
          (f.get a = none ∧ f.get b = none) ∨ ∃ v, f.get a = some v ∧ f.get b = some v)) ∧
    (∀ (a b : TeamLDAPMapping), ∀ f ∈ TeamLDAPMapping.fields,
        (∀ g ∈ TeamLDAPMapping.fields, g.key ≠ f.key → g.get a = g.get b) →
        (deepEqual a b = true ↔
          (f.get a = none ∧ f.get b = none) ∨ ∃ v, f.get a = some v ∧ f.get b = some v)) ∧
    (∀ (a b : AdminMessage), ∀ f ∈ AdminMessage.fields,
        (∀ g ∈ AdminMessage.fields, g.key ≠ f.key → g.get a = g.get b) →
        (deepEqual a b = true ↔
          (f.get a = none ∧ f.get b = none) ∨ ∃ v, f.get a = some v ∧ f.get b = some v)) ∧
    (∀ (a b : User), ∀ f ∈ User.fields,
        (∀ g ∈ User.fields, g.key ≠ f.key → g.get a = g.get b) →
        (deepEqual a b = true ↔
          (f.get a = none ∧ f.get b = none) ∨ ∃ v, f.get a = some v ∧ f.get b = some v)) ∧
    (∀ (a b : UserLDAPMapping), ∀ f ∈ UserLDAPMapping.fields, ∀ v : Value,
        f.get a = none → f.get b = some v → deepEqual a b = false) ∧
    (∀ (a b : TeamLDAPMapping), ∀ f ∈ TeamLDAPMapping.fields, ∀ v : Value,
        f.get a = none → f.get b = some v → deepEqual a b = false) ∧
    (∀ (a b : AdminMessage), ∀ f ∈ AdminMessage.fields, ∀ v : Value,
        f.get a = none → f.get b = some v → deepEqual a b = false) ∧
    (∀ (a b : User), ∀ f ∈ User.fields, ∀ v : Value,
        f.get a = none → f.get b = some v → deepEqual a b = false) ∧
    (∀ r : UserLDAPMapping, r.SiteAdmin = none →
        deepEqual r { r with SiteAdmin := some false } = false) := by
  refine ⟨?_, ?_, ?_, ?_, ?_, ?_, ?_, ?_, ?_⟩
  · intro a b f hf hrest
    exact deepEqualFields_iff UserLDAPMapping_lawful a b hf hrest
  · intro a b f hf hrest
    exact deepEqualFields_iff TeamLDAPMapping_lawful a b hf hrest
  · intro a b f hf hrest
    exact deepEqualFields_iff AdminMessage_lawful a b hf hrest
  · intro a b f hf hrest
    exact deepEqualFields_iff User_lawful a b hf hrest
  · intro a b f hf v ha hb
    exact deepEqualFields_absent_present hf ha hb
  · intro a b f hf v ha hb
    exact deepEqualFields_absent_present hf ha hb
  · intro a b f hf v ha hb
    exact deepEqualFields_absent_present hf ha hb
  · intro a b f hf v ha hb
    exact deepEqualFields_absent_present hf ha hb
  · intro r hr
    exact deepEqualFields_absent_present
      (List.get_mem UserLDAPMapping.fields 6 (by decide))
      (show (UserLDAPMapping.fields.get ⟨6, by decide⟩).get r = none by
        show r.SiteAdmin.map Value.bool = none
        rw [hr]
        rfl) (v := Value.bool false) rfl

/-- C3 on concrete records: two `UserLDAPMapping` that agree everywhere but on
`SiteAdmin`, absent in one and `false` in the other, are not equal; likewise a
`TeamLDAPMapping` with `ID` absent against `ID` present and `0`, an `AdminMessage` with
`Message` absent against the empty string, and a `User` with `Login` absent against the
empty string. -/
theorem deepEqual_field_witness :
    ¬ (deepEqual UserLDAPMapping.zero { UserLDAPMapping.zero with SiteAdmin := some false }
        = true) ∧
    ¬ (deepEqual TeamLDAPMapping.zero { TeamLDAPMapping.zero with ID := some ⟨0, by decide⟩ }
        = true) ∧
    ¬ (deepEqual AdminMessage.zero { AdminMessage.zero with Message := some (utf8 "") } = true) ∧
    ¬ (deepEqual User.zero { User.zero with Login := some (utf8 "") } = true) ∧
    deepEqual UserLDAPMapping.zero { UserLDAPMapping.zero with SiteAdmin := some false }
      = false ∧
    deepEqual TeamLDAPMapping.zero { TeamLDAPMapping.zero with ID := some ⟨0, by decide⟩ }
      = false ∧
    deepEqual AdminMessage.zero { AdminMessage.zero with Message := some (utf8 "") } = false ∧
    deepEqual User.zero { User.zero with Login := some (utf8 "") } = false ∧
    deepEqual { UserLDAPMapping.zero with LDAPDN := some (utf8 "cn=x") }
      { UserLDAPMapping.zero with LDAPDN := some (utf8 "cn=x"), SiteAdmin := some false }
      = false :=
  ⟨fun h => by
      have := (deepEqual_field.1 UserLDAPMapping.zero
        { UserLDAPMapping.zero with SiteAdmin := some false }
        (UserLDAPMapping.fields.get ⟨6, by decide⟩) (List.get_mem _ _ _)
        (by decide)).1 h
      revert this
      decide,
    fun h => by
      have := (deepEqual_field.2.1 TeamLDAPMapping.zero
        { TeamLDAPMapping.zero with ID := some ⟨0, by decide⟩ }
        (TeamLDAPMapping.fields.get ⟨0, by decide⟩) (List.get_mem _ _ _)
        (by decide)).1 h
      revert this
      decide,
    fun h => by
      have := (deepEqual_field.2.2.1 AdminMessage.zero
        { AdminMessage.zero with Message := some (utf8 "") }
        (AdminMessage.fields.get ⟨0, by decide⟩) (List.get_mem _ _ _)
        (by decide)).1 h
      revert this
      decide,
    fun h => by
      have := (deepEqual_field.2.2.2.1 User.zero { User.zero with Login := some (utf8 "") }
        (User.fields.get ⟨0, by decide⟩) (List.get_mem _ _ _) (by decide)).1 h
      revert this
      decide,
    deepEqual_field.2.2.2.2.1 _ _ (UserLDAPMapping.fields.get ⟨6, by decide⟩)
      (List.get_mem _ _ _) (Value.bool false) rfl rfl,
    deepEqual_field.2.2.2.2.2.1 _ _ (TeamLDAPMapping.fields.get ⟨0, by decide⟩)
      (List.get_mem _ _ _) (Value.int ⟨0, by decide⟩) rfl rfl,
    deepEqual_field.2.2.2.2.2.2.1 _ _ (AdminMessage.fields.get ⟨0, by decide⟩)
      (List.get_mem _ _ _) (Value.string (utf8 "")) rfl rfl,
    deepEqual_field.2.2.2.2.2.2.2.1 _ _ (User.fields.get ⟨0, by decide⟩)
      (List.get_mem _ _ _) (Value.string (utf8 "")) rfl rfl,
    deepEqual_field.2.2.2.2.2.2.2.2 { UserLDAPMapping.zero with LDAPDN := some (utf8 "cn=x") } rfl⟩

/-! ## The four operations -/

theorem decimal_eq_of_formatInt (t : Int) (cs : List Char) (h : formatInt t = cs) :
    decimal t = String.mk cs :=
  String.ext ((formatInt_eq_decimal t).symm.trans h)

/-- C4: for every user identifier `user` and every payload `mapping`,
`UpdateUserLDAPMapping` makes exactly one call of `NewRequest`, with method `PATCH`, path
`"admin/ldap/users/" ++ user ++ "/mapping"` and the payload unchanged as body, and hands
the request it got to `Do` with a fresh `UserLDAPMapping` as target; when `NewRequest`
and `Do` succeed it returns, with no error, the record `Do` decoded into that target,
with the response. In the scenario of the test (user `"u"`, payload with only
`ldap_dn = D`, a server answering the request `PATCH admin/ldap/users/u/mapping` with
body `{"ldap_dn": D}` by `{"id": 1, "ldap_dn": D}`) the result has `id = 1` and
`ldap_dn = D` present and every other field absent. -/
theorem UpdateUserLDAPMapping_request_and_result {σ Ctx Req Resp Err : Type}
    (c : Client σ Ctx Req Resp Err) (ctx : Ctx) (user : GoString)
    (mapping : Option UserLDAPMapping) (st : σ) :
    (((AdminService.mk (recording c)).UpdateUserLDAPMapping ctx user mapping (st, [])).2.2
      = Event.newRequest "PATCH" (utf8 "admin/ldap/users/" ++ user ++ utf8 "/mapping")
          (Body.userLDAPMapping mapping) ::
        (match (c.NewRequest "PATCH" (utf8 "admin/ldap/users/" ++ user ++ utf8 "/mapping")
            (Body.userLDAPMapping mapping) st).1 with
          | Except.error _ => []
          | Except.ok req =>
            [Event.exchange ctx req (marshal UserLDAPMapping.zero)])) ∧
    (∀ (req : Req) (st1 st2 : σ) (resp : Option Resp) (m : UserLDAPMapping),
      c.NewRequest "PATCH" (utf8 "admin/ldap/users/" ++ user ++ utf8 "/mapping")
          (Body.userLDAPMapping mapping) st = (Except.ok req, st1) →
      c.Do ctx req UserLDAPMapping.zero st1 = ((resp, none, m), st2) →
      (AdminService.mk c).UpdateUserLDAPMapping ctx user mapping st
        = ((some m, resp, none), st2)) ∧
    (∀ D : String,
      (AdminService.mk (serverClient (expecting
          { method := "PATCH", urlStr := utf8 "admin/ldap/users/u/mapping",
            body := some [("ldap_dn", JSON.string D)] }
          { statusCode := 200 }
          [("id", JSON.number 1), ("ldap_dn", JSON.string D)]))).UpdateUserLDAPMapping ()
          (utf8 "u") (some { UserLDAPMapping.zero with LDAPDN := some (utf8 D) }) ()
        = ((some { UserLDAPMapping.zero with
              ID := some ⟨1, by decide⟩, LDAPDN := some (utf8 D) },
            some { statusCode := 200 }, none), ())) := by
  refine ⟨?_, ?_, ?_⟩
  · cases h : (c.NewRequest "PATCH" (utf8 "admin/ldap/users/" ++ user ++ utf8 "/mapping")
        (Body.userLDAPMapping mapping) st).1 with
    | error e => simpa using UpdateUserLDAPMapping_journal_error c ctx user mapping st [] e h
    | ok req => simpa using UpdateUserLDAPMapping_journal_ok c ctx user mapping st [] req h
  · intro req st1 st2 resp m h1 h2
    exact UpdateUserLDAPMapping_ok c ctx user mapping st st1 st2 req resp m h1 h2
  · intro D
    refine UpdateUserLDAPMapping_ok _ () (utf8 "u") _ () () ()
      (HTTPRequest.mk "PATCH" (utf8 "admin/ldap/users/u/mapping")
        (some [("ldap_dn", JSON.string D)])) _ _ ?_ ?_
    · show (Except.ok (HTTPRequest.mk "PATCH"
          (utf8 "admin/ldap/users/" ++ utf8 "u" ++ utf8 "/mapping")
          (some [("ldap_dn", JSON.string (toValidUTF8 (utf8 D)))])), ()) = _
      rw [toValidUTF8_utf8]
      rfl
    · simp only [serverClient, expecting, if_true]
      rfl

/-- C4 on the scenario of the test: the hypotheses of the success case hold for the
client in front of the test's server, and the operation returns `id = 1` and the
distinguished name, everything else absent. -/
theorem UpdateUserLDAPMapping_request_and_result_witness :
    (AdminService.mk (serverClient (expecting
        (HTTPRequest.mk "PATCH" (utf8 "admin/ldap/users/u/mapping")
          (some [("ldap_dn", JSON.string "uid=asdf,ou=users,dc=github,dc=com")]))
        (Response.mk 200)
        [("id", JSON.number 1),
          ("ldap_dn", JSON.string "uid=asdf,ou=users,dc=github,dc=com")]))).UpdateUserLDAPMapping
        () (utf8 "u")
        (some { UserLDAPMapping.zero with
          LDAPDN := some (utf8 "uid=asdf,ou=users,dc=github,dc=com") }) ()
      = ((some { UserLDAPMapping.zero with
            ID := some ⟨1, by decide⟩,
            LDAPDN := some (utf8 "uid=asdf,ou=users,dc=github,dc=com") },
          some (Response.mk 200), none), ()) :=
  (UpdateUserLDAPMapping_request_and_result
    (serverClient (expecting
      (HTTPRequest.mk "PATCH" (utf8 "admin/ldap/users/u/mapping")
        (some [("ldap_dn", JSON.string "uid=asdf,ou=users,dc=github,dc=com")]))
      (Response.mk 200)
      [("id", JSON.number 1),
        ("ldap_dn", JSON.string "uid=asdf,ou=users,dc=github,dc=com")]))
    () (utf8 "u")
    (some { UserLDAPMapping.zero with
      LDAPDN := some (utf8 "uid=asdf,ou=users,dc=github,dc=com") })
    ()).2.1
    (HTTPRequest.mk "PATCH" (utf8 "admin/ldap/users/u/mapping")
      (some [("ldap_dn", JSON.string "uid=asdf,ou=users,dc=github,dc=com")]))
    () () (some (Response.mk 200)) _ rfl (by decide)

/-- C5: for every team identifier `team` of type `int`, zero and negative values
included, and every payload `mapping`, `UpdateTeamLDAPMapping` makes exactly one call of
`NewRequest`, with method `PATCH`, path `"admin/ldap/teams/" ++ decimal team ++
"/mapping"` where `decimal` is the base-10 rendering, and the payload unchanged as body,
and hands the request it got to `Do` with a fresh `TeamLDAPMapping` as target; when
`NewRequest` and `Do` succeed it returns, with no error, the record `Do` decoded into
that target, with the response. Team 1 gives the path `admin/ldap/teams/1/mapping`; 0,
-15 and the smallest and largest `int` are rendered as `0`, `-15`,
`-9223372036854775808` and `9223372036854775807`. -/
theorem UpdateTeamLDAPMapping_request_and_result {σ Ctx Req Resp Err : Type}
    (c : Client σ Ctx Req Resp Err) (ctx : Ctx) (team : GoInt)
    (mapping : Option TeamLDAPMapping) (st : σ) :
    (((AdminService.mk (recording c)).UpdateTeamLDAPMapping ctx team mapping (st, [])).2.2
      = Event.newRequest "PATCH"
          (utf8 "admin/ldap/teams/" ++ utf8 (decimal team.val) ++ utf8 "/mapping")
          (Body.teamLDAPMapping mapping) ::
        (match (c.NewRequest "PATCH"
            (utf8 "admin/ldap/teams/" ++ utf8 (decimal team.val) ++ utf8 "/mapping")
            (Body.teamLDAPMapping mapping) st).1 with
          | Except.error _ => []
          | Except.ok req =>
            [Event.exchange ctx req (marshal TeamLDAPMapping.zero)])) ∧
    (∀ (req : Req) (st1 st2 : σ) (resp : Option Resp) (m : TeamLDAPMapping),
      c.NewRequest "PATCH"
          (utf8 "admin/ldap/teams/" ++ utf8 (decimal team.val) ++ utf8 "/mapping")
          (Body.teamLDAPMapping mapping) st = (Except.ok req, st1) →
      c.Do ctx req TeamLDAPMapping.zero st1 = ((resp, none, m), st2) →
      (AdminService.mk c).UpdateTeamLDAPMapping ctx team mapping st
        = ((some m, resp, none), st2)) ∧
    "admin/ldap/teams/" ++ decimal 1 ++ "/mapping" = "admin/ldap/teams/1/mapping" ∧
    utf8 "admin/ldap/teams/" ++ utf8 (decimal 1) ++ utf8 "/mapping"
      = utf8 "admin/ldap/teams/1/mapping" ∧
    decimal 0 = "0" ∧ decimal (-15) = "-15" ∧
    decimal minInt = "-9223372036854775808" ∧ decimal maxInt = "9223372036854775807" := by
  refine ⟨?_, ?_, ?_, ?_, ?_, ?_, ?_, ?_⟩
  · cases h : (c.NewRequest "PATCH"
        (utf8 "admin/ldap/teams/" ++ utf8 (decimal team.val) ++ utf8 "/mapping")
        (Body.teamLDAPMapping mapping) st).1 with
    | error e => simpa using UpdateTeamLDAPMapping_journal_error c ctx team mapping st [] e h
    | ok req => simpa using UpdateTeamLDAPMapping_journal_ok c ctx team mapping st [] req h
  · intro req st1 st2 resp m h1 h2
    exact UpdateTeamLDAPMapping_ok c ctx team mapping st st1 st2 req resp m h1 h2
  · rw [decimal_eq_of_formatInt 1 ['1'] (by decide)]
    decide
  · rw [decimal_eq_of_formatInt 1 ['1'] (by decide)]
    decide
  · exact decimal_eq_of_formatInt 0 ['0'] (by decide)
  · exact decimal_eq_of_formatInt (-15) ['-', '1', '5'] (by decide)
  · exact decimal_eq_of_formatInt minInt "-9223372036854775808".data (by decide)
  · exact decimal_eq_of_formatInt maxInt "9223372036854775807".data (by decide)

/-- C5 on the scenario of the test: team 1, a payload with only `ldap_dn`, and a server
that answers the request `PATCH admin/ldap/teams/1/mapping` carrying that body. -/
theorem UpdateTeamLDAPMapping_request_and_result_witness :
    (AdminService.mk (serverClient (expecting
        (HTTPRequest.mk "PATCH" (utf8 "admin/ldap/teams/1/mapping")
          (some [("ldap_dn", JSON.string "cn=Enterprise Ops,ou=teams,dc=github,dc=com")]))
        (Response.mk 200)
        [("id", JSON.number 1),
          ("ldap_dn",
            JSON.string "cn=Enterprise Ops,ou=teams,dc=github,dc=com")]))).UpdateTeamLDAPMapping
        () ⟨1, by decide⟩
        (some { TeamLDAPMapping.zero with
          LDAPDN := some (utf8 "cn=Enterprise Ops,ou=teams,dc=github,dc=com") }) ()
      = ((some { TeamLDAPMapping.zero with
            ID := some ⟨1, by decide⟩,
            LDAPDN := some (utf8 "cn=Enterprise Ops,ou=teams,dc=github,dc=com") },
          some (Response.mk 200), none), ()) :=
  (UpdateTeamLDAPMapping_request_and_result
    (serverClient (expecting
      (HTTPRequest.mk "PATCH" (utf8 "admin/ldap/teams/1/mapping")
        (some [("ldap_dn", JSON.string "cn=Enterprise Ops,ou=teams,dc=github,dc=com")]))
      (Response.mk 200)
      [("id", JSON.number 1),
        ("ldap_dn", JSON.string "cn=Enterprise Ops,ou=teams,dc=github,dc=com")]))
    () ⟨1, by decide⟩
    (some { TeamLDAPMapping.zero with
      LDAPDN := some (utf8 "cn=Enterprise Ops,ou=teams,dc=github,dc=com") })
    ()).2.1
    (HTTPRequest.mk "PATCH" (utf8 "admin/ldap/teams/1/mapping")
      (some [("ldap_dn", JSON.string "cn=Enterprise Ops,ou=teams,dc=github,dc=com")]))
    () () (some (Response.mk 200)) _
    (by
      rw [decimal_eq_of_formatInt 1 ['1'] (by decide)]
      rfl)
    (by decide)

/-- C6: for every old login `oldLogin` and new login `newLogin`, `RenameUser` makes
exactly one call of `NewRequest`, with method `PATCH`, path `"admin/users/" ++ oldLogin`
(the old login verbatim) and as body a `User` whose `Login` is present with value
`newLogin` and whose every other field is absent, which is encoded as the single member
`"login"` carrying the encoding of `newLogin` - `{"login": n}` when `newLogin` is the
text `n` -, and hands the request it got to `Do` with a fresh `AdminMessage` as target;
when `NewRequest` and `Do` succeed it returns, with no error, the record `Do` decoded
into that target, with the response. Against a server that answers the request
`PATCH admin/users/oldLogin` with that body by `{"message": M, "url": U}`, the result
has `message = M` and `url = U` present. -/
theorem RenameUser_request_and_result {σ Ctx Req Resp Err : Type}
    (c : Client σ Ctx Req Resp Err) (ctx : Ctx) (oldLogin newLogin : GoString) (st : σ) :
    (((AdminService.mk (recording c)).RenameUser ctx oldLogin newLogin (st, [])).2.2
      = Event.newRequest "PATCH" (utf8 "admin/users/" ++ oldLogin)
          (Body.user (some { User.zero with Login := some newLogin })) ::
        (match (c.NewRequest "PATCH" (utf8 "admin/users/" ++ oldLogin)
            (Body.user (some { User.zero with Login := some newLogin })) st).1 with
          | Except.error _ => []
          | Except.ok req =>
            [Event.exchange ctx req (marshal AdminMessage.zero)])) ∧
    (Body.user (some { User.zero with Login := some newLogin })).encode
      = some [("login", (Value.string newLogin).toJSON)] ∧
    (∀ n : String, (Body.user (some { User.zero with Login := some (utf8 n) })).encode
      = some [("login", JSON.string n)]) ∧
    (∀ f ∈ User.fields, f.key ≠ "login" →
      f.get { User.zero with Login := some newLogin } = none) ∧
    (∀ (req : Req) (st1 st2 : σ) (resp : Option Resp) (m : AdminMessage),
      c.NewRequest "PATCH" (utf8 "admin/users/" ++ oldLogin)
          (Body.user (some { User.zero with Login := some newLogin })) st
        = (Except.ok req, st1) →
      c.Do ctx req AdminMessage.zero st1 = ((resp, none, m), st2) →
      (AdminService.mk c).RenameUser ctx oldLogin newLogin st
        = ((some m, resp, none), st2)) ∧
    (∀ (M U : String) (resp : Response),
      (AdminService.mk (serverClient (expecting
          (HTTPRequest.mk "PATCH" (utf8 "admin/users/" ++ oldLogin)
            (some [("login", (Value.string newLogin).toJSON)]))
          resp
          [("message", JSON.string M), ("url", JSON.string U)]))).RenameUser ()
          oldLogin newLogin ()
        = ((some { Message := some (utf8 M), URL := some (utf8 U) }, some resp, none),
            ())) := by
  refine ⟨?_, rfl, ?_, ?_, ?_, ?_⟩
  · cases h : (c.NewRequest "PATCH" (utf8 "admin/users/" ++ oldLogin)
        (Body.user (some { User.zero with Login := some newLogin })) st).1 with
    | error e => simpa using RenameUser_journal_error c ctx oldLogin newLogin st [] e h
    | ok req => simpa using RenameUser_journal_ok c ctx oldLogin newLogin st [] req h
  · intro n
    show some [("login", JSON.string (toValidUTF8 (utf8 n)))] = _
    rw [toValidUTF8_utf8]
  · intro f hf hne
    simp only [User.fields, List.mem_cons, List.mem_singleton, List.not_mem_nil,
      or_false] at hf
    rcases hf with rfl | rfl | rfl | rfl | rfl | rfl | rfl | rfl | rfl
        | rfl | rfl | rfl | rfl | rfl | rfl | rfl | rfl | rfl <;>
      first
      | rfl
      | exact absurd rfl hne
  · intro req st1 st2 resp m h1 h2
    exact RenameUser_ok c ctx oldLogin newLogin st st1 st2 req resp m h1 h2
  · intro M U resp
    refine RenameUser_ok _ () oldLogin newLogin () () ()
      (HTTPRequest.mk "PATCH" (utf8 "admin/users/" ++ oldLogin)
        (some [("login", (Value.string newLogin).toJSON)])) _ _ rfl ?_
    simp only [serverClient, expecting, if_true]
    rfl

/-- C6 on the scenario of the test: old login `octocat`, new login `monalisa`, and the
server's message and URL. -/
theorem RenameUser_request_and_result_witness :
    (AdminService.mk (serverClient (expecting
        (HTTPRequest.mk "PATCH" (utf8 "admin/users/octocat")
          (some [("login", JSON.string "monalisa")]))
        (Response.mk 200)
        [("message",
            JSON.string "Job queued to rename user. It may take a few minutes to complete."),
          ("url", JSON.string "https://api.github.com/user/1")]))).RenameUser
        () (utf8 "octocat") (utf8 "monalisa") ()
      = ((some
            { Message := some
                (utf8 "Job queued to rename user. It may take a few minutes to complete."),
              URL := some (utf8 "https://api.github.com/user/1") },
          some (Response.mk 200), none), ()) ∧
    (User.fields.get ⟨5, by decide⟩).get { User.zero with Login := some (utf8 "monalisa") }
      = none :=
  ⟨(RenameUser_request_and_result
      (serverClient (expecting
        (HTTPRequest.mk "PATCH" (utf8 "admin/users/octocat")
          (some [("login", JSON.string "monalisa")]))
        (Response.mk 200)
        [("message",
            JSON.string "Job queued to rename user. It may take a few minutes to complete."),
          ("url", JSON.string "https://api.github.com/user/1")]))
      () (utf8 "octocat") (utf8 "monalisa") ()).2.2.2.2.1
      (HTTPRequest.mk "PATCH" (utf8 "admin/users/octocat")
        (some [("login", JSON.string "monalisa")]))
      () () (some (Response.mk 200)) _ rfl (by decide),
    (RenameUser_request_and_result refusingClient () (utf8 "octocat") (utf8 "monalisa")
      ()).2.2.2.1
      (User.fields.get ⟨5, by decide⟩) (List.get_mem _ _ _) (by decide)⟩

/-- C7: `CreateUser` performs no validation of its input. For every `user`, records with
`Login` or `Email` absent included, it makes exactly one call of `NewRequest`, with
method `POST`, path `"admin/users"` and the record unchanged as body, and hands the
request it got to `Do` with a fresh `User` as target; the body is encoded as the
record's present fields and nothing else; and an error it returns is always the error
`NewRequest` returned or the error `Do` returned, never one of its own. With `Login` and
`Email` absent and a server that accepts the request, it succeeds. -/
theorem CreateUser_no_validation {σ Ctx Req Resp Err : Type}
    (c : Client σ Ctx Req Resp Err) (ctx : Ctx) (user : Option User) (st : σ) :
    (((AdminService.mk (recording c)).CreateUser ctx user (st, [])).2.2
      = Event.newRequest "POST" (utf8 "admin/users") (Body.user user) ::
        (match (c.NewRequest "POST" (utf8 "admin/users") (Body.user user) st).1 with
          | Except.error _ => []
          | Except.ok req =>
            [Event.exchange ctx req (marshal User.zero)])) ∧
    (∀ r : User, (Body.user (some r)).encode = some (marshal r) ∧
      ∀ f ∈ User.fields, ∀ j : JSON,
        (f.key, j) ∈ marshal r ↔ ∃ v, f.get r = some v ∧ j = v.toJSON) ∧
    (∀ e : Err, ((AdminService.mk c).CreateUser ctx user st).1.2.2 = some e →
      (c.NewRequest "POST" (utf8 "admin/users") (Body.user user) st).1 = Except.error e ∨
      ∃ req : Req,
        (c.NewRequest "POST" (utf8 "admin/users") (Body.user user) st).1 = Except.ok req ∧
        (c.Do ctx req User.zero
          (c.NewRequest "POST" (utf8 "admin/users") (Body.user user) st).2).1.2.1
            = some e) ∧
    (∀ resp : Response,
      (AdminService.mk (serverClient (fun _ => (some resp, Except.ok [])))).CreateUser ()
          (some User.zero) ()
        = ((some User.zero, some resp, none), ())) := by
  refine ⟨?_, ?_, ?_, ?_⟩
  · cases h : (c.NewRequest "POST" (utf8 "admin/users") (Body.user user) st).1 with
    | error e => simpa using CreateUser_journal_error c ctx user st [] e h
    | ok req => simpa using CreateUser_journal_ok c ctx user st [] req h
  · intro r
    exact ⟨rfl, fun f hf j =>
      marshalFields_member_omitempty User_lawful User_all_omitempty r hf j⟩
  · intro e he
    rcases h1 : c.NewRequest "POST" (utf8 "admin/users") (Body.user user) st with ⟨res, st1⟩
    cases res with
    | error e1 =>
      rw [CreateUser_error c ctx user st st1 e1 h1] at he
      simp only [Option.some.injEq] at he
      subst he
      exact Or.inl rfl
    | ok req =>
      rcases h2 : c.Do ctx req User.zero st1 with ⟨⟨resp, err, m⟩, st2⟩
      cases err with
      | none =>
        rw [CreateUser_ok c ctx user st st1 st2 req resp m h1 h2] at he
        exact absurd he (by simp)
      | some e2 =>
        rw [CreateUser_fail c ctx user st st1 st2 req resp e2 m h1 h2] at he
        simp only [Option.some.injEq] at he
        subst he
        refine Or.inr ⟨req, rfl, ?_⟩
        show (c.Do ctx req User.zero st1).1.2.1 = some e2
        rw [h2]
  · intro resp
    exact CreateUser_ok _ () _ () () ()
      (HTTPRequest.mk "POST" (utf8 "admin/users") (some [])) (some resp) User.zero rfl rfl

/-- C7 on concrete clients: with a client that rejects the request, the error returned
for a record without `Login` and `Email` is the one of `NewRequest`; and the record
`{login: "octocat"}` without `Email` is encoded with its one present field. -/
theorem CreateUser_no_validation_witness :
    ((refusingClient.NewRequest "POST" (utf8 "admin/users") (Body.user (some User.zero)) ()).1
        = Except.error (TransportError.failure "bad request") ∨
      ∃ req : HTTPRequest,
        (refusingClient.NewRequest "POST" (utf8 "admin/users")
          (Body.user (some User.zero)) ()).1 = Except.ok req ∧
        (refusingClient.Do () req User.zero
          (refusingClient.NewRequest "POST" (utf8 "admin/users")
            (Body.user (some User.zero)) ()).2).1.2.1
          = some (TransportError.failure "bad request")) ∧
    ("login", JSON.string "octocat")
      ∈ marshal { User.zero with Login := some (utf8 "octocat") } :=
  ⟨(CreateUser_no_validation refusingClient () (some User.zero) ()).2.2.1
      (TransportError.failure "bad request") (by decide),
    (((CreateUser_no_validation refusingClient () none ()).2.1
      { User.zero with Login := some (utf8 "octocat") }).2
      (User.fields.get ⟨0, by decide⟩) (List.get_mem _ _ _) (JSON.string "octocat")).2
      ⟨Value.string (utf8 "octocat"), rfl, by decide⟩⟩

/-! ## The result of a decode -/

theorem unmarshalFields_fits {α : Type} {fs : List (FieldInfo α)} (z : α) :
    ∀ o : Object, (unmarshalFields fs o z).2 = none →
      ∀ kv ∈ o, ∀ g, lookupField fs kv.1 = some g → kv.2 ≠ JSON.null →
        ∃ v, literalStore g.kind kv.2 = some v := by
  intro o
  induction o using List.reverseRecOn with
  | nil =>
    intro _ kv hkv
    exact absurd hkv (List.not_mem_nil _)
  | append_singleton o kv0 ih =>
    intro hok kv hkv g hg hn
    obtain ⟨k0, j0⟩ := kv0
    have hstep : unmarshalFields fs (o ++ [(k0, j0)]) z
        = unmarshalMember fs (unmarshalFields fs o z) (k0, j0) := by
      simp [unmarshalFields, List.foldl_append]
    rw [hstep] at hok
    rcases List.mem_append.1 hkv with hmem | hmem
    · exact ih (unmarshalMember_sticky _ _ hok) kv hmem g hg hn
    · rw [List.mem_singleton] at hmem
      subst hmem
      cases hj : literalStore g.kind j0 with
      | some v => exact ⟨v, rfl⟩
      | none => exact absurd hok (unmarshalMember_misfit hg hn hj _)

theorem lastMember_mem {α : Type} {fs : List (FieldInfo α)} {f : FieldInfo α} {o : Object}
    {j : JSON} (h : lastMember fs f o = some j) :
    ∃ k, (k, j) ∈ o ∧ resolves fs f k = true := by
  simp only [lastMember, Option.map_eq_some'] at h
  obtain ⟨kv, hlast, rfl⟩ := h
  have hmem := List.mem_of_getLast?_eq_some hlast
  rw [List.mem_filter] at hmem
  exact ⟨kv.1, hmem.1, hmem.2⟩

theorem lastMember_eq_memberValue {α : Type} {fs : List (FieldInfo α)} (hl : Lawful fs)
    {f : FieldInfo α} (o : Object) (hexact : ∀ kv ∈ o, ∃ g ∈ fs, g.key = kv.1) :
    lastMember fs f o = memberValue f.key o := by
  unfold lastMember memberValue
  congr 2
  apply List.filter_congr
  intro kv hkv
  obtain ⟨g, hg, hk⟩ := hexact kv hkv
  simp only [resolves, ← hk, lookupField_self hl hg]

/-- After a decode without error, a field is present exactly when the object's last
member for it has a value other than `null`. -/
theorem unmarshalFields_isSome {α : Type} {fs : List (FieldInfo α)} (hl : Lawful fs) (z : α)
    (hz : ∀ f ∈ fs, f.get z = none) (o : Object) (hok : (unmarshalFields fs o z).2 = none)
    {f : FieldInfo α} (hf : f ∈ fs) :
    (f.get (unmarshalFields fs o z).1).isSome = true ↔
      ∃ j, lastMember fs f o = some j ∧ j ≠ JSON.null := by
  rw [unmarshalFields_get hl z hz o hok f hf]
  cases hlast : lastMember fs f o with
  | none => simp
  | some j =>
    simp only [Option.some_bind, Option.some.injEq, exists_eq_left']
    constructor
    · intro h hn
      rw [hn, literalStore_null] at h
      simp at h
    · intro hn
      obtain ⟨k, hmem, hres⟩ := lastMember_mem hlast
      cases hk : lookupField fs k with
      | none => simp [resolves, hk] at hres
      | some g =>
        have hgf : g = f := (resolves_of_lookup hl hf hk).1 hres
        subst hgf
        obtain ⟨v, hv⟩ := unmarshalFields_fits z o hok (k, j) hmem g hk hn
        rw [hv]
        rfl

/-- C8, as stated, fails on a member whose value is `null`: the field appears in the
response and is absent in the result. With payload `{login, email}` and the response
`{"login": "octocat", "email": null}`, `CreateUser` succeeds and returns a `User` with
`Email` absent although the response has an `email` member; so "present exactly the
fields that appear in the response" does not hold. -/
theorem CreateUser_null_member_absent :
    (AdminService.mk (serverClient (fun _ => (some (Response.mk 201), Except.ok
        [("login", JSON.string "octocat"), ("email", JSON.null)])))).CreateUser ()
        (some { User.zero with
          Login := some (utf8 "octocat"), Email := some (utf8 "octocat@github.com") }) ()
      = ((some { User.zero with Login := some (utf8 "octocat") },
          some (Response.mk 201), none), ()) ∧
    ¬ ∀ body : Object, (unmarshal body User.zero).2 = none →
        ∀ f ∈ User.fields,
          ((f.get (unmarshal body User.zero).1).isSome = true ↔ ∃ j, (f.key, j) ∈ body) := by
  refine ⟨by decide, ?_⟩
  intro h
  have h1 := (h [("login", JSON.string "octocat"), ("email", JSON.null)] (by decide)
    (User.fields.get ⟨5, by decide⟩) (List.get_mem _ _ _)).2 ⟨JSON.null, by decide⟩
  revert h1
  decide

/-- C8, amended: on success the result of `CreateUser` is determined by the response
alone. For a client that decodes the response body into the target, two payloads `p`
and `q`, and a server that answers both requests with the same response and body,
decoded without error: the result is the body decoded into a fresh all-absent `User`,
and the two calls return the same result. A field of the result holds what the body's
last member for the field says (the key matched exactly or, failing that, ignoring
case): it is present exactly when that member has a value other than `null`, and then
holds the member's value; it is absent when the body has no member for it or the
member is `null`. When every key of the body is the key of a field, the member for a
field is the last one carrying the field's key. A field present in the payload only is
absent in the result, and the target handed to `Do` is a `User` with every field
absent, whatever the payload. -/
theorem CreateUser_result_from_response
    (server : HTTPRequest → Option Response × Except String Object)
    (p q : Option User) (resp : Option Response) (body : Object)
    (hp : server (HTTPRequest.mk "POST" (utf8 "admin/users") (p.map marshal))
      = (resp, Except.ok body))
    (hq : server (HTTPRequest.mk "POST" (utf8 "admin/users") (q.map marshal))
      = (resp, Except.ok body))
    (hok : (unmarshal body User.zero).2 = none) :
    (AdminService.mk (serverClient server)).CreateUser () p ()
      = ((some (unmarshal body User.zero).1, resp, none), ()) ∧
    (AdminService.mk (serverClient server)).CreateUser () q ()
      = (AdminService.mk (serverClient server)).CreateUser () p () ∧
    (∀ f ∈ User.fields, f.get (unmarshal body User.zero).1
      = (lastMember User.fields f body).bind (literalStore f.kind)) ∧
    (∀ f ∈ User.fields, ((f.get (unmarshal body User.zero).1).isSome = true ↔
      ∃ j, lastMember User.fields f body = some j ∧ j ≠ JSON.null)) ∧
    (∀ f ∈ User.fields, ∀ v, f.get (unmarshal body User.zero).1 = some v →
      lastMember User.fields f body = some v.toJSON) ∧
    (∀ f ∈ User.fields, lastMember User.fields f body = none →
      f.get (unmarshal body User.zero).1 = none) ∧
    ((∀ kv ∈ body, ∃ g ∈ User.fields, g.key = kv.1) →
      ∀ f ∈ User.fields, f.get (unmarshal body User.zero).1
        = (memberValue f.key body).bind (literalStore f.kind)) ∧
    ((AdminService.mk (recording (serverClient server))).CreateUser () p ((), [])).2.2
      = [Event.newRequest "POST" (utf8 "admin/users") (Body.user p),
          Event.exchange () (HTTPRequest.mk "POST" (utf8 "admin/users") (p.map marshal))
            []] ∧
    unmarshal [("LOGIN", JSON.string "x"), ("ſite_admin", JSON.bool true),
        ("name", JSON.string "y")] User.zero
      = ({ User.zero with Login := some (utf8 "x"), SiteAdmin := some true }, none) := by
  have key : ∀ r : Option User,
      server (HTTPRequest.mk "POST" (utf8 "admin/users") (r.map marshal))
        = (resp, Except.ok body) →
      (AdminService.mk (serverClient server)).CreateUser () r ()
        = ((some (unmarshal body User.zero).1, resp, none), ()) := by
    intro r hr
    refine CreateUser_ok _ () r () () ()
      (HTTPRequest.mk "POST" (utf8 "admin/users") (r.map marshal)) resp _ rfl ?_
    simp only [serverClient, hr, hok, Option.map_none']
  have hget := unmarshalFields_get User_lawful User.zero (by decide) body hok
  refine ⟨key p hp, by rw [key p hp, key q hq], hget, ?_, ?_, ?_, ?_, ?_, by decide⟩
  · intro f hf
    exact unmarshalFields_isSome User_lawful User.zero (by decide) body hok hf
  · intro f hf v hv
    have h : f.get (unmarshal body User.zero).1
        = (lastMember User.fields f body).bind (literalStore f.kind) := hget f hf
    rw [hv] at h
    cases hlast : lastMember User.fields f body with
    | none =>
      rw [hlast] at h
      simp at h
    | some j =>
      rw [hlast] at h
      simp only [Option.some_bind] at h
      rw [literalStore_eq_toJSON h.symm]
  · intro f hf hnone
    have h : f.get (unmarshal body User.zero).1
        = (lastMember User.fields f body).bind (literalStore f.kind) := hget f hf
    rw [hnone] at h
    exact h
  · intro hexact f hf
    have h : f.get (unmarshal body User.zero).1
        = (lastMember User.fields f body).bind (literalStore f.kind) := hget f hf
    rw [h, lastMember_eq_memberValue User_lawful body hexact]
  · exact CreateUser_journal_ok (serverClient server) () p () []
      (HTTPRequest.mk "POST" (utf8 "admin/users") (p.map marshal)) rfl

/-- C8, amended, on the scenario of the test: payload `{login, email}`, a second payload
with another login, and a server answering both with the user object of the test, which
has no `email` member: both calls return the `User` the test wants, with `Email` absent
and `Login` present with the response's value. -/
theorem CreateUser_result_from_response_witness :
    (AdminService.mk (serverClient
        (fun _ => (some (Response.mk 201), Except.ok octocatResponse)))).CreateUser ()
        (some { User.zero with
          Login := some (utf8 "octocat"), Email := some (utf8 "octocat@github.com") }) ()
      = ((some (unmarshal octocatResponse User.zero).1, some (Response.mk 201), none), ()) ∧
    (AdminService.mk (serverClient
        (fun _ => (some (Response.mk 201), Except.ok octocatResponse)))).CreateUser ()
        (some { User.zero with Login := some (utf8 "hubot") }) ()
      = (AdminService.mk (serverClient
        (fun _ => (some (Response.mk 201), Except.ok octocatResponse)))).CreateUser ()
        (some { User.zero with
          Login := some (utf8 "octocat"), Email := some (utf8 "octocat@github.com") }) () ∧
    (User.fields.get ⟨5, by decide⟩).get (unmarshal octocatResponse User.zero).1 = none ∧
    (User.fields.get ⟨0, by decide⟩).get (unmarshal octocatResponse User.zero).1
      = (memberValue "login" octocatResponse).bind (literalStore Kind.string) ∧
    (unmarshal octocatResponse User.zero).1 = octocatUser :=
  ⟨(CreateUser_result_from_response
      (fun _ => (some (Response.mk 201), Except.ok octocatResponse))
      (some { User.zero with
        Login := some (utf8 "octocat"), Email := some (utf8 "octocat@github.com") })
      (some { User.zero with Login := some (utf8 "hubot") })
      (some (Response.mk 201)) octocatResponse rfl rfl (by decide)).1,
    (CreateUser_result_from_response
      (fun _ => (some (Response.mk 201), Except.ok octocatResponse))
      (some { User.zero with
        Login := some (utf8 "octocat"), Email := some (utf8 "octocat@github.com") })
      (some { User.zero with Login := some (utf8 "hubot") })
      (some (Response.mk 201)) octocatResponse rfl rfl (by decide)).2.1,
    (CreateUser_result_from_response
      (fun _ => (some (Response.mk 201), Except.ok octocatResponse))
      (some { User.zero with
        Login := some (utf8 "octocat"), Email := some (utf8 "octocat@github.com") })
      (some { User.zero with Login := some (utf8 "hubot") })
      (some (Response.mk 201)) octocatResponse rfl rfl (by decide)).2.2.2.2.2.1
      (User.fields.get ⟨5, by decide⟩) (List.get_mem _ _ _) (by decide),
    (CreateUser_result_from_response
      (fun _ => (some (Response.mk 201), Except.ok octocatResponse))
      (some { User.zero with
        Login := some (utf8 "octocat"), Email := some (utf8 "octocat@github.com") })
      (some { User.zero with Login := some (utf8 "hubot") })
      (some (Response.mk 201)) octocatResponse rfl rfl (by decide)).2.2.2.2.2.2.1
      (by decide) (User.fields.get ⟨0, by decide⟩) (List.get_mem _ _ _),
    by decide⟩

/-- C9: for each of the four operations and every input, if `NewRequest` succeeds and
the exchange `Do` fails with error `e`, returning the response `resp` (possibly nil) and
having written whatever it wrote into the target, then the operation returns an absent
result together with exactly `resp` and `e`, and the client has received exactly one
call of `NewRequest` followed by exactly one call of `Do`: there is no retry, and what
`Do` wrote into the target is dropped. -/
theorem exchange_failure_propagates {σ Ctx Req Resp Err : Type}
    (c : Client σ Ctx Req Resp Err) (ctx : Ctx) (st : σ) :
    (∀ (user : GoString) (mapping : Option UserLDAPMapping) (req : Req) (st1 st2 : σ)
        (resp : Option Resp) (e : Err) (m : UserLDAPMapping),
      c.NewRequest "PATCH" (utf8 "admin/ldap/users/" ++ user ++ utf8 "/mapping")
          (Body.userLDAPMapping mapping) st = (Except.ok req, st1) →
      c.Do ctx req UserLDAPMapping.zero st1 = ((resp, some e, m), st2) →
      (AdminService.mk c).UpdateUserLDAPMapping ctx user mapping st = ((none, resp, some e), st2) ∧
      ((AdminService.mk (recording c)).UpdateUserLDAPMapping ctx user mapping (st, [])).2.2
        = [Event.newRequest "PATCH" (utf8 "admin/ldap/users/" ++ user ++ utf8 "/mapping")
            (Body.userLDAPMapping mapping),
            Event.exchange ctx req (marshal UserLDAPMapping.zero)] ∧
      exchanges ((AdminService.mk (recording c)).UpdateUserLDAPMapping ctx user mapping (st, [])).2.2
        = 1) ∧
    (∀ (team : GoInt) (mapping : Option TeamLDAPMapping) (req : Req) (st1 st2 : σ)
        (resp : Option Resp) (e : Err) (m : TeamLDAPMapping),
      c.NewRequest "PATCH" (utf8 "admin/ldap/teams/" ++ utf8 (decimal team.val) ++ utf8 "/mapping")
          (Body.teamLDAPMapping mapping) st = (Except.ok req, st1) →
      c.Do ctx req TeamLDAPMapping.zero st1 = ((resp, some e, m), st2) →
      (AdminService.mk c).UpdateTeamLDAPMapping ctx team mapping st = ((none, resp, some e), st2) ∧
      ((AdminService.mk (recording c)).UpdateTeamLDAPMapping ctx team mapping (st, [])).2.2
        = [Event.newRequest "PATCH" (utf8 "admin/ldap/teams/" ++ utf8 (decimal team.val) ++ utf8 "/mapping")
            (Body.teamLDAPMapping mapping),
            Event.exchange ctx req (marshal TeamLDAPMapping.zero)] ∧
      exchanges ((AdminService.mk (recording c)).UpdateTeamLDAPMapping ctx team mapping (st, [])).2.2
        = 1) ∧
    (∀ (user : Option User) (req : Req) (st1 st2 : σ)
        (resp : Option Resp) (e : Err) (m : User),
      c.NewRequest "POST" (utf8 "admin/users")
          (Body.user user) st = (Except.ok req, st1) →
      c.Do ctx req User.zero st1 = ((resp, some e, m), st2) →
      (AdminService.mk c).CreateUser ctx user st = ((none, resp, some e), st2) ∧
      ((AdminService.mk (recording c)).CreateUser ctx user (st, [])).2.2
        = [Event.newRequest "POST" (utf8 "admin/users")
            (Body.user user),
            Event.exchange ctx req (marshal User.zero)] ∧
      exchanges ((AdminService.mk (recording c)).CreateUser ctx user (st, [])).2.2
        = 1) ∧
    (∀ (oldLogin newLogin : GoString) (req : Req) (st1 st2 : σ)
        (resp : Option Resp) (e : Err) (m : AdminMessage),
      c.NewRequest "PATCH" (utf8 "admin/users/" ++ oldLogin)
          (Body.user (some { User.zero with Login := some newLogin })) st = (Except.ok req, st1) →
      c.Do ctx req AdminMessage.zero st1 = ((resp, some e, m), st2) →
      (AdminService.mk c).RenameUser ctx oldLogin newLogin st = ((none, resp, some e), st2) ∧
      ((AdminService.mk (recording c)).RenameUser ctx oldLogin newLogin (st, [])).2.2
        = [Event.newRequest "PATCH" (utf8 "admin/users/" ++ oldLogin)
            (Body.user (some { User.zero with Login := some newLogin })),
            Event.exchange ctx req (marshal AdminMessage.zero)] ∧
      exchanges ((AdminService.mk (recording c)).RenameUser ctx oldLogin newLogin (st, [])).2.2
        = 1) := by
  refine ⟨?_, ?_, ?_, ?_⟩
  · intro user mapping req st1 st2 resp e m h1 h2
    have hj := UpdateUserLDAPMapping_journal_ok c ctx user mapping st [] req (by rw [h1])
    rw [List.nil_append] at hj
    exact ⟨UpdateUserLDAPMapping_fail c ctx user mapping st st1 st2 req resp e m h1 h2, hj, by
      rw [hj]
      rfl⟩
  · intro team mapping req st1 st2 resp e m h1 h2
    have hj := UpdateTeamLDAPMapping_journal_ok c ctx team mapping st [] req (by rw [h1])
    rw [List.nil_append] at hj
    exact ⟨UpdateTeamLDAPMapping_fail c ctx team mapping st st1 st2 req resp e m h1 h2, hj, by
      rw [hj]
      rfl⟩
  · intro user req st1 st2 resp e m h1 h2
    have hj := CreateUser_journal_ok c ctx user st [] req (by rw [h1])
    rw [List.nil_append] at hj
    exact ⟨CreateUser_fail c ctx user st st1 st2 req resp e m h1 h2, hj, by
      rw [hj]
      rfl⟩
  · intro oldLogin newLogin req st1 st2 resp e m h1 h2
    have hj := RenameUser_journal_ok c ctx oldLogin newLogin st [] req (by rw [h1])
    rw [List.nil_append] at hj
    exact ⟨RenameUser_fail c ctx oldLogin newLogin st st1 st2 req resp e m h1 h2, hj, by
      rw [hj]
      rfl⟩

/-- C9 on concrete transports. A server whose body does not fit (`ldap_dn` is not a
string): `Do` has written `id = 1` and an empty `ldap_dn` into the target and reports a
decode error, and `UpdateUserLDAPMapping` returns no record, the response and that error
after one exchange. An unreachable server for `UpdateTeamLDAPMapping`, a server answering
500 for `CreateUser`, and a body whose `url` is a number for `RenameUser`. -/
theorem exchange_failure_propagates_witness :
    ((serverClient misfitMapping).Do ()
        (HTTPRequest.mk "PATCH" (utf8 "admin/ldap/users/u/mapping") (some []))
        UserLDAPMapping.zero ()).1.2.2
      = { UserLDAPMapping.zero with ID := some ⟨1, by decide⟩, LDAPDN := some (utf8 "") } ∧
    ((AdminService.mk (serverClient misfitMapping)).UpdateUserLDAPMapping () (utf8 "u")
        (some UserLDAPMapping.zero) ()
      = ((none, some (Response.mk 200),
          some (TransportError.decode (UnmarshalTypeError.mk "ldap_dn"))), ()) ∧
      exchanges ((AdminService.mk (recording (serverClient misfitMapping))).UpdateUserLDAPMapping
        () (utf8 "u") (some UserLDAPMapping.zero) ((), [])).2.2 = 1) ∧
    ((AdminService.mk (serverClient unreachable)).UpdateTeamLDAPMapping () ⟨1, by decide⟩
        none ()
      = ((none, none, some (TransportError.failure "connection refused")), ()) ∧
      exchanges ((AdminService.mk (recording (serverClient unreachable))).UpdateTeamLDAPMapping
        () ⟨1, by decide⟩ none ((), [])).2.2 = 1) ∧
    ((AdminService.mk (serverClient serverError)).CreateUser () (some User.zero) ()
      = ((none, some (Response.mk 500),
          some (TransportError.failure "internal server error")), ()) ∧
      exchanges ((AdminService.mk (recording (serverClient serverError))).CreateUser
        () (some User.zero) ((), [])).2.2 = 1) ∧
    ((AdminService.mk (serverClient misfitMessage)).RenameUser () (utf8 "octocat") (utf8 "monalisa") ()
      = ((none, some (Response.mk 200),
          some (TransportError.decode (UnmarshalTypeError.mk "url"))), ()) ∧
      exchanges ((AdminService.mk (recording (serverClient misfitMessage))).RenameUser
        () (utf8 "octocat") (utf8 "monalisa") ((), [])).2.2 = 1) :=
  ⟨by decide,
    ⟨((exchange_failure_propagates (serverClient misfitMapping) () ()).1 (utf8 "u")
        (some UserLDAPMapping.zero) _ () () (some (Response.mk 200))
        (TransportError.decode (UnmarshalTypeError.mk "ldap_dn"))
        { UserLDAPMapping.zero with ID := some ⟨1, by decide⟩, LDAPDN := some (utf8 "") }
        rfl (by decide)).1,
      ((exchange_failure_propagates (serverClient misfitMapping) () ()).1 (utf8 "u")
        (some UserLDAPMapping.zero) _ () () (some (Response.mk 200))
        (TransportError.decode (UnmarshalTypeError.mk "ldap_dn"))
        { UserLDAPMapping.zero with ID := some ⟨1, by decide⟩, LDAPDN := some (utf8 "") }
        rfl (by decide)).2.2⟩,
    ⟨((exchange_failure_propagates (serverClient unreachable) () ()).2.1 ⟨1, by decide⟩
        none _ () () none (TransportError.failure "connection refused")
        TeamLDAPMapping.zero rfl (by decide)).1,
      ((exchange_failure_propagates (serverClient unreachable) () ()).2.1 ⟨1, by decide⟩
        none _ () () none (TransportError.failure "connection refused")
        TeamLDAPMapping.zero rfl (by decide)).2.2⟩,
    ⟨((exchange_failure_propagates (serverClient serverError) () ()).2.2.1
        (some User.zero) _ () () (some (Response.mk 500))
        (TransportError.failure "internal server error") User.zero rfl (by decide)).1,
      ((exchange_failure_propagates (serverClient serverError) () ()).2.2.1
        (some User.zero) _ () () (some (Response.mk 500))
        (TransportError.failure "internal server error") User.zero rfl (by decide)).2.2⟩,
    ⟨((exchange_failure_propagates (serverClient misfitMessage) () ()).2.2.2
        (utf8 "octocat") (utf8 "monalisa") _ () () (some (Response.mk 200))
        (TransportError.decode (UnmarshalTypeError.mk "url"))
        { Message := some (utf8 "queued"), URL := some (utf8 "") } rfl (by decide)).1,
      ((exchange_failure_propagates (serverClient misfitMessage) () ()).2.2.2
        (utf8 "octocat") (utf8 "monalisa") _ () () (some (Response.mk 200))
        (TransportError.decode (UnmarshalTypeError.mk "url"))
        { Message := some (utf8 "queued"), URL := some (utf8 "") } rfl (by decide)).2.2⟩⟩

/-- C10: for each of the four operations and every input, if `NewRequest` fails with
error `e`, the operation returns an absent result, an absent response and exactly `e`,
and the client has received the one call of `NewRequest` and no call of `Do`. -/
theorem request_failure_propagates {σ Ctx Req Resp Err : Type}
    (c : Client σ Ctx Req Resp Err) (ctx : Ctx) (st : σ) :
    (∀ (user : GoString) (mapping : Option UserLDAPMapping) (st1 : σ) (e : Err),
      c.NewRequest "PATCH" (utf8 "admin/ldap/users/" ++ user ++ utf8 "/mapping")
          (Body.userLDAPMapping mapping) st = (Except.error e, st1) →
      (AdminService.mk c).UpdateUserLDAPMapping ctx user mapping st = ((none, none, some e), st1) ∧
      ((AdminService.mk (recording c)).UpdateUserLDAPMapping ctx user mapping (st, [])).2.2
        = [Event.newRequest "PATCH" (utf8 "admin/ldap/users/" ++ user ++ utf8 "/mapping")
            (Body.userLDAPMapping mapping)] ∧
      exchanges ((AdminService.mk (recording c)).UpdateUserLDAPMapping ctx user mapping (st, [])).2.2
        = 0) ∧
    (∀ (team : GoInt) (mapping : Option TeamLDAPMapping) (st1 : σ) (e : Err),
      c.NewRequest "PATCH" (utf8 "admin/ldap/teams/" ++ utf8 (decimal team.val) ++ utf8 "/mapping")
          (Body.teamLDAPMapping mapping) st = (Except.error e, st1) →
      (AdminService.mk c).UpdateTeamLDAPMapping ctx team mapping st = ((none, none, some e), st1) ∧
      ((AdminService.mk (recording c)).UpdateTeamLDAPMapping ctx team mapping (st, [])).2.2
        = [Event.newRequest "PATCH" (utf8 "admin/ldap/teams/" ++ utf8 (decimal team.val) ++ utf8 "/mapping")
            (Body.teamLDAPMapping mapping)] ∧
      exchanges ((AdminService.mk (recording c)).UpdateTeamLDAPMapping ctx team mapping (st, [])).2.2
        = 0) ∧
    (∀ (user : Option User) (st1 : σ) (e : Err),
      c.NewRequest "POST" (utf8 "admin/users")
          (Body.user user) st = (Except.error e, st1) →
      (AdminService.mk c).CreateUser ctx user st = ((none, none, some e), st1) ∧
      ((AdminService.mk (recording c)).CreateUser ctx user (st, [])).2.2
        = [Event.newRequest "POST" (utf8 "admin/users")
            (Body.user user)] ∧
      exchanges ((AdminService.mk (recording c)).CreateUser ctx user (st, [])).2.2
        = 0) ∧
    (∀ (oldLogin newLogin : GoString) (st1 : σ) (e : Err),
      c.NewRequest "PATCH" (utf8 "admin/users/" ++ oldLogin)
          (Body.user (some { User.zero with Login := some newLogin })) st = (Except.error e, st1) →
      (AdminService.mk c).RenameUser ctx oldLogin newLogin st = ((none, none, some e), st1) ∧
      ((AdminService.mk (recording c)).RenameUser ctx oldLogin newLogin (st, [])).2.2
        = [Event.newRequest "PATCH" (utf8 "admin/users/" ++ oldLogin)
            (Body.user (some { User.zero with Login := some newLogin }))] ∧
      exchanges ((AdminService.mk (recording c)).RenameUser ctx oldLogin newLogin (st, [])).2.2
        = 0) := by
  refine ⟨?_, ?_, ?_, ?_⟩
  · intro user mapping st1 e h1
    have hj := UpdateUserLDAPMapping_journal_error c ctx user mapping st [] e (by rw [h1])
    rw [List.nil_append] at hj
    exact ⟨UpdateUserLDAPMapping_error c ctx user mapping st st1 e h1, hj, by
      rw [hj]
      rfl⟩
  · intro team mapping st1 e h1
    have hj := UpdateTeamLDAPMapping_journal_error c ctx team mapping st [] e (by rw [h1])
    rw [List.nil_append] at hj
    exact ⟨UpdateTeamLDAPMapping_error c ctx team mapping st st1 e h1, hj, by
      rw [hj]
      rfl⟩
  · intro user st1 e h1
    have hj := CreateUser_journal_error c ctx user st [] e (by rw [h1])
    rw [List.nil_append] at hj
    exact ⟨CreateUser_error c ctx user st st1 e h1, hj, by
      rw [hj]
      rfl⟩
  · intro oldLogin newLogin st1 e h1
    have hj := RenameUser_journal_error c ctx oldLogin newLogin st [] e (by rw [h1])
    rw [List.nil_append] at hj
    exact ⟨RenameUser_error c ctx oldLogin newLogin st st1 e h1, hj, by
      rw [hj]
      rfl⟩

/-- C10 on a client whose `NewRequest` rejects every request: each of the four
operations returns no record, no response and the error of `NewRequest`, and the journal
holds no exchange. -/
theorem request_failure_propagates_witness :
    ((AdminService.mk refusingClient).UpdateUserLDAPMapping () (utf8 "u") none ()
      = ((none, none, some (TransportError.failure "bad request")), ()) ∧
      exchanges ((AdminService.mk (recording refusingClient)).UpdateUserLDAPMapping
        () (utf8 "u") none ((), [])).2.2 = 0) ∧
    ((AdminService.mk refusingClient).UpdateTeamLDAPMapping () ⟨-1, by decide⟩ none ()
      = ((none, none, some (TransportError.failure "bad request")), ()) ∧
      exchanges ((AdminService.mk (recording refusingClient)).UpdateTeamLDAPMapping
        () ⟨-1, by decide⟩ none ((), [])).2.2 = 0) ∧
    ((AdminService.mk refusingClient).CreateUser () (some User.zero) ()
      = ((none, none, some (TransportError.failure "bad request")), ()) ∧
      exchanges ((AdminService.mk (recording refusingClient)).CreateUser
        () (some User.zero) ((), [])).2.2 = 0) ∧
    ((AdminService.mk refusingClient).RenameUser () (utf8 "octocat") (utf8 "monalisa") ()
      = ((none, none, some (TransportError.failure "bad request")), ()) ∧
      exchanges ((AdminService.mk (recording refusingClient)).RenameUser
        () (utf8 "octocat") (utf8 "monalisa") ((), [])).2.2 = 0) :=
  ⟨⟨((request_failure_propagates refusingClient () ()).1 (utf8 "u") none ()
        (TransportError.failure "bad request") rfl).1,
      ((request_failure_propagates refusingClient () ()).1 (utf8 "u") none ()
        (TransportError.failure "bad request") rfl).2.2⟩,
    ⟨((request_failure_propagates refusingClient () ()).2.1 ⟨-1, by decide⟩ none ()
        (TransportError.failure "bad request") rfl).1,
      ((request_failure_propagates refusingClient () ()).2.1 ⟨-1, by decide⟩ none ()
        (TransportError.failure "bad request") rfl).2.2⟩,
    ⟨((request_failure_propagates refusingClient () ()).2.2.1 (some User.zero) ()
        (TransportError.failure "bad request") rfl).1,
      ((request_failure_propagates refusingClient () ()).2.2.1 (some User.zero) ()
        (TransportError.failure "bad request") rfl).2.2⟩,
    ⟨((request_failure_propagates refusingClient () ()).2.2.2 (utf8 "octocat") (utf8 "monalisa") ()
        (TransportError.failure "bad request") rfl).1,
      ((request_failure_propagates refusingClient () ()).2.2.2 (utf8 "octocat") (utf8 "monalisa") ()
        (TransportError.failure "bad request") rfl).2.2⟩⟩

end Github
